import Mathlib

/-!
Verification development for the mail2Sql repository.

The Python sources (gmail_api.py, sqlite_db.py, mailStructs.py) are shallow-embedded below:
pure parsing helpers become Lean functions on `String`/`List Char`, the Gmail message
dictionaries become structures with `Option` fields for possibly-missing keys, regular
expressions are run by a small backtracking engine faithful to Python `re` semantics
(leftmost match, first alternative preferred, greedy quantifiers), and the SQLite database
becomes an explicit record of tables with the statement-by-statement semantics of
`insert_message` (including `PRAGMA foreign_keys = ON`: foreign-key checks on
`emails.sender_email`, and ON DELETE CASCADE fired by the internal delete of
`INSERT OR REPLACE`).  Recursive functions over strings and trees take an explicit fuel
argument so that they are structurally recursive and evaluate inside the kernel; wrappers
pass a fuel that provably dominates the recursion depth.
-/

namespace Mail2Sql

/-- Decidable equality for `Except` results, so that concrete runs can be checked
with `decide`. -/
instance {ε α : Type} [DecidableEq ε] [DecidableEq α] : DecidableEq (Except ε α) := fun x y =>
  match x, y with
  | .ok a, .ok b => decidable_of_iff (a = b) (by simp)
  | .error a, .error b => decidable_of_iff (a = b) (by simp)
  | .ok _, .error _ => isFalse (by simp)
  | .error _, .ok _ => isFalse (by simp)

/-! ## Basic Python string helpers -/

/-- Characters treated as whitespace by Python `str.strip` (ASCII subset). -/
def pySpace (c : Char) : Bool :=
  c = ' ' || c = Char.ofNat 9 || c = Char.ofNat 10 || c = Char.ofNat 13 ||
  c = Char.ofNat 11 || c = Char.ofNat 12

/-- Python `str.strip()` on a character list. -/
def stripList (l : List Char) : List Char :=
  ((l.dropWhile pySpace).reverse.dropWhile pySpace).reverse

/-- Python `str.strip()`. -/
def pyStrip (s : String) : String :=
  String.mk (stripList s.toList)

/-- Python `s.replace(old, new)` on character lists (all occurrences, left to right,
non-overlapping), with fuel for structural recursion. -/
def replList : Nat → List Char → List Char → List Char → List Char
  | 0, _, _, l => l
  | _, _, _, [] => []
  | fuel + 1, pat, rep, c :: rest =>
    if pat ≠ [] ∧ pat.isPrefixOf (c :: rest) then
      rep ++ replList fuel pat rep ((c :: rest).drop pat.length)
    else
      c :: replList fuel pat rep rest

/-- Python `s.replace(old, new)`. -/
def pyReplace (s old new : String) : String :=
  String.mk (replList (s.toList.length + 1) old.toList new.toList s.toList)

/-- Lower-casing used for case-insensitive header lookup (`h["name"].lower()`). -/
def toLowerStr (s : String) : String :=
  String.mk (s.toList.map Char.toLower)

/-- Python `x in s` substring containment. -/
def subIn (pat : List Char) : List Char → Bool
  | [] => pat.isEmpty
  | c :: rest => pat.isPrefixOf (c :: rest) || subIn pat rest

/-- Python `pat in s` on strings. -/
def strIn (pat s : String) : Bool :=
  subIn pat.toList s.toList

/-- Truthiness of an optional string field (Python: missing key or `""` are falsy). -/
def truthyOptStr : Option String → Bool
  | some s => s ≠ ""
  | none => false

/-- Python `s.startswith(pre)`. -/
def startsWithStr (pre s : String) : Bool :=
  pre.toList.isPrefixOf s.toList

/-- Keep-first deduplication, modelling iteration over a Python `set` of tuples
(the set's iteration order is unspecified in Python; the claims below do not
depend on it, so first-occurrence order is fixed here). -/
def dedupKeepFirst [DecidableEq α] : List α → List α
  | [] => []
  | a :: rest => a :: (dedupKeepFirst rest).filter (fun b => b ≠ a)

/-! ## Python `int(...)` on strings -/

/-- Digit run with Python's single-underscore-between-digits rule, accumulating a value. -/
def digitsGo (acc : Nat) : List Char → Option Nat
  | [] => some acc
  | c :: rest =>
    if c.isDigit then digitsGo (acc * 10 + (c.toNat - 48)) rest
    else if c = '_' then
      match rest with
      | d :: r2 => if d.isDigit then digitsGo (acc * 10 + (d.toNat - 48)) r2 else none
      | [] => none
    else none

/-- Nonempty digit run (first char must be a digit). -/
def digitsVal : List Char → Option Nat
  | [] => none
  | c :: rest => if c.isDigit then digitsGo (c.toNat - 48) rest else none

/-- Python `int(s)` for `str` arguments: optional surrounding whitespace, optional sign,
digits (underscores allowed between digits); raises `ValueError` otherwise. -/
def pyIntE (s : String) : Except String Int :=
  let l := stripList s.toList
  match l with
  | '-' :: r =>
    match digitsVal r with
    | some n => .ok (-(n : Int))
    | none => .error "ValueError: invalid literal for int"
  | '+' :: r =>
    match digitsVal r with
    | some n => .ok (n : Int)
    | none => .error "ValueError: invalid literal for int"
  | r =>
    match digitsVal r with
    | some n => .ok (n : Int)
    | none => .error "ValueError: invalid literal for int"

/-! ## Base64 (`base64.urlsafe_b64decode`) -/

/-- Value of a standard-alphabet base64 character. -/
def b64Val (c : Char) : Option Nat :=
  if 'A' ≤ c ∧ c ≤ 'Z' then some (c.toNat - 65)
  else if 'a' ≤ c ∧ c ≤ 'z' then some (c.toNat - 71)
  else if '0' ≤ c ∧ c ≤ '9' then some (c.toNat + 4)
  else if c = '+' then some 62
  else if c = '/' then some 63
  else none

/-- Decode 6-bit groups to bytes (full quads, then a 2- or 3-character remainder). -/
def b64Groups : List Nat → List Nat
  | a :: b :: c :: d :: rest =>
    (a * 4 + b / 16) :: ((b % 16) * 16 + c / 4) :: ((c % 4) * 64 + d) :: b64Groups rest
  | [a, b] => [a * 4 + b / 16]
  | [a, b, c] => [a * 4 + b / 16, (b % 16) * 16 + c / 4]
  | _ => []

/-- Model of `base64.urlsafe_b64decode` on `str` input: translate `-_` to `+/`, discard
characters outside the alphabet (non-strict `binascii` mode), and raise
`binascii.Error` on incorrect padding (data length 1 mod 4, or a 2/3 mod 4 tail
without enough `=` padding). -/
def b64decodeE (s : String) : Except String (List Nat) :=
  let t := s.toList.map (fun c => if c = '-' then '+' else if c = '_' then '/' else c)
  let keep := t.filter (fun c => (b64Val c).isSome || c = '=')
  let good := keep.takeWhile (fun c => c ≠ '=')
  let pads := (keep.drop good.length).countP (fun c => c = '=')
  let rm := good.length % 4
  if rm = 1 then .error "binascii.Error: Invalid base64-encoded string"
  else if rm = 2 ∧ pads < 2 then .error "binascii.Error: Incorrect padding"
  else if rm = 3 ∧ pads < 1 then .error "binascii.Error: Incorrect padding"
  else .ok (b64Groups (good.map (fun c => (b64Val c).getD 0)))

/-! ## UTF-8 decoding (`bytes.decode("utf-8", errors="replace" / "ignore")`) -/

/-- Continuation byte test. -/
def isCont (b : Nat) : Bool := 128 ≤ b ∧ b ≤ 191

/-- Allowed second byte of a 3-byte sequence (excludes overlong forms and surrogates). -/
def cont3Ok (b b2 : Nat) : Bool :=
  if b = 224 then 160 ≤ b2 ∧ b2 ≤ 191
  else if b = 237 then 128 ≤ b2 ∧ b2 ≤ 159
  else isCont b2

/-- Allowed second byte of a 4-byte sequence. -/
def cont4Ok (b b2 : Nat) : Bool :=
  if b = 240 then 144 ≤ b2 ∧ b2 ≤ 191
  else if b = 244 then 128 ≤ b2 ∧ b2 ≤ 143
  else isCont b2

/-- UTF-8 decoder; `repl = true` emits U+FFFD for each maximal invalid subpart
(`errors="replace"`), `repl = false` drops it (`errors="ignore"`).  Every recursive
call consumes at least one byte, so the fuel wrapper passing `length + 1` is exact. -/
def utf8Decode (repl : Bool) : Nat → List Nat → List Char
  | 0, _ => []
  | _, [] => []
  | fuel + 1, b :: rest =>
    let bad : List Char := if repl then [Char.ofNat 0xFFFD] else []
    if b < 128 then Char.ofNat b :: utf8Decode repl fuel rest
    else if 194 ≤ b ∧ b ≤ 223 then
      match rest with
      | b2 :: r2 =>
        if isCont b2 then Char.ofNat ((b - 192) * 64 + (b2 - 128)) :: utf8Decode repl fuel r2
        else bad ++ utf8Decode repl fuel (b2 :: r2)
      | [] => bad
    else if 224 ≤ b ∧ b ≤ 239 then
      match rest with
      | b2 :: r2 =>
        if cont3Ok b b2 then
          match r2 with
          | b3 :: r3 =>
            if isCont b3 then
              Char.ofNat ((b - 224) * 4096 + (b2 - 128) * 64 + (b3 - 128)) ::
                utf8Decode repl fuel r3
            else bad ++ utf8Decode repl fuel (b3 :: r3)
          | [] => bad
        else bad ++ utf8Decode repl fuel (b2 :: r2)
      | [] => bad
    else if 240 ≤ b ∧ b ≤ 244 then
      match rest with
      | b2 :: r2 =>
        if cont4Ok b b2 then
          match r2 with
          | b3 :: r3 =>
            if isCont b3 then
              match r3 with
              | b4 :: r4 =>
                if isCont b4 then
                  Char.ofNat ((b - 240) * 262144 + (b2 - 128) * 4096 +
                    (b3 - 128) * 64 + (b4 - 128)) :: utf8Decode repl fuel r4
                else bad ++ utf8Decode repl fuel (b4 :: r4)
              | [] => bad
            else bad ++ utf8Decode repl fuel (b3 :: r3)
          | [] => bad
        else bad ++ utf8Decode repl fuel (b2 :: r2)
      | [] => bad
    else bad ++ utf8Decode repl fuel rest

/-- `bytes.decode("utf-8", errors="replace")`. -/
def utf8Replace (bs : List Nat) : String := String.mk (utf8Decode true (bs.length + 1) bs)

/-- `bytes.decode("utf-8", errors="ignore")`. -/
def utf8Ignore (bs : List Nat) : String := String.mk (utf8Decode false (bs.length + 1) bs)

/-- Decode a base64 body payload to text as the source does:
`base64.urlsafe_b64decode(data).decode("utf-8", errors="replace")`. -/
def decodeReplaceE (data : String) : Except String String := do
  let bs ← b64decodeE data
  pure (utf8Replace bs)

/-- Total variant used on the specification side (errors collapse to `""`;
under the well-formedness hypotheses of the theorems below they do not occur). -/
def decodeReplaceTot (data : String) : String :=
  match decodeReplaceE data with
  | .ok s => s
  | .error _ => ""

/-! ## Timestamps (`datetime.datetime` with an optional fixed UTC offset) -/

/-- An aware or naive timestamp; `offsetMin = some o` is a fixed offset of `o` minutes. -/
structure Timestamp where
  year : Nat
  month : Nat
  day : Nat
  hour : Nat
  minute : Nat
  second : Nat
  offsetMin : Option Int
deriving DecidableEq

def pad2 (n : Nat) : String :=
  if n < 10 then "0" ++ toString n else toString n

def pad4 (n : Nat) : String :=
  if n < 10 then "000" ++ toString n
  else if n < 100 then "00" ++ toString n
  else if n < 1000 then "0" ++ toString n
  else toString n

/-- Python `str(datetime)` for microsecond-free datetimes:
`YYYY-MM-DD HH:MM:SS` followed by `±HH:MM` for aware values. -/
def pyStrTimestamp (t : Timestamp) : String :=
  pad4 t.year ++ "-" ++ pad2 t.month ++ "-" ++ pad2 t.day ++ " " ++
  pad2 t.hour ++ ":" ++ pad2 t.minute ++ ":" ++ pad2 t.second ++
  (match t.offsetMin with
   | none => ""
   | some o =>
     (if o < 0 then "-" else "+") ++ pad2 (o.natAbs / 60) ++ ":" ++ pad2 (o.natAbs % 60))

def isLeap (y : Nat) : Bool :=
  (y % 4 = 0 ∧ y % 100 ≠ 0) ∨ y % 400 = 0

def daysInMonth (y m : Nat) : Nat :=
  if m = 2 then (if isLeap y then 29 else 28)
  else if m = 4 ∨ m = 6 ∨ m = 9 ∨ m = 11 then 30
  else 31

/-- Two mandatory decimal digits. -/
def take2 : List Char → Option (Nat × List Char)
  | a :: b :: r =>
    if a.isDigit ∧ b.isDigit then some ((a.toNat - 48) * 10 + (b.toNat - 48), r) else none
  | _ => none

/-- Four mandatory decimal digits. -/
def take4 : List Char → Option (Nat × List Char)
  | a :: b :: c :: d :: r =>
    if a.isDigit ∧ b.isDigit ∧ c.isDigit ∧ d.isDigit then
      some (((a.toNat - 48) * 1000 + (b.toNat - 48) * 100 + (c.toNat - 48) * 10 +
        (d.toNat - 48)), r)
    else none
  | _ => none

/-- Optional UTC offset `±HH:MM` consuming the whole remainder. -/
def parseIsoOffset : List Char → Option (Option Int)
  | [] => some none
  | sign :: r =>
    if sign = '+' ∨ sign = '-' then
      match take2 r with
      | some (oh, r2) =>
        match r2 with
        | ':' :: r3 =>
          match take2 r3 with
          | some (om, []) =>
            if oh ≤ 23 ∧ om ≤ 59 then
              some (some (if sign = '-' then -((oh * 60 + om : Nat) : Int)
                          else ((oh * 60 + om : Nat) : Int)))
            else none
          | _ => none
        | _ => none
      | none => none
    else none

/-- Seconds part `SS` plus optional offset, consuming the remainder. -/
def parseIsoSecond (y m d hh mi : Nat) (l : List Char) : Option Timestamp :=
  match take2 l with
  | some (ss, r5) =>
    if ss ≤ 59 then
      match parseIsoOffset r5 with
      | some off => some ⟨y, m, d, hh, mi, ss, off⟩
      | none => none
    else none
  | none => none

/-- Minutes part `MM[:SS]` plus optional offset, consuming the remainder. -/
def parseIsoMinute (y m d hh : Nat) (l : List Char) : Option Timestamp :=
  match take2 l with
  | some (mi, r3) =>
    if mi ≤ 59 then
      match r3 with
      | [] => some ⟨y, m, d, hh, mi, 0, none⟩
      | ':' :: r4 => parseIsoSecond y m d hh mi r4
      | r4 =>
        match parseIsoOffset r4 with
        | some off => some ⟨y, m, d, hh, mi, 0, off⟩
        | none => none
    else none
  | none => none

/-- Time-of-day part `HH[:MM[:SS]]` plus optional offset, consuming the remainder. -/
def parseIsoTime (y m d : Nat) (l : List Char) : Option Timestamp :=
  match take2 l with
  | some (hh, r) =>
    if hh ≤ 23 then
      match r with
      | [] => some ⟨y, m, d, hh, 0, 0, none⟩
      | ':' :: r2 => parseIsoMinute y m d hh r2
      | r2 =>
        match parseIsoOffset r2 with
        | some off => some ⟨y, m, d, hh, 0, 0, off⟩
        | none => none
    else none
  | none => none

/-- Model of `datetime.datetime.fromisoformat` on the dashed
`YYYY-MM-DD[<sep>HH[:MM[:SS]]][±HH:MM]` format (any single separator character, as in
CPython); fractional seconds are not modelled, every other string raises `ValueError`. -/
def fromisoformat (s : String) : Except String Timestamp :=
  let l := s.toList
  match take4 l with
  | some (y, r1) =>
    match r1 with
    | '-' :: r2 =>
      match take2 r2 with
      | some (mo, r3) =>
        match r3 with
        | '-' :: r4 =>
          match take2 r4 with
          | some (d, r5) =>
            if 1 ≤ mo ∧ mo ≤ 12 ∧ 1 ≤ d ∧ d ≤ daysInMonth y mo then
              match r5 with
              | [] => .ok ⟨y, mo, d, 0, 0, 0, none⟩
              | _sep :: r6 =>
                match parseIsoTime y mo d r6 with
                | some t => .ok t
                | none => .error "ValueError: Invalid isoformat string"
            else .error "ValueError: Invalid isoformat string"
          | none => .error "ValueError: Invalid isoformat string"
        | _ => .error "ValueError: Invalid isoformat string"
      | none => .error "ValueError: Invalid isoformat string"
    | _ => .error "ValueError: Invalid isoformat string"
  | none => .error "ValueError: Invalid isoformat string"

/-! ## `datetime.datetime.strptime(s, "%a, %d %b %Y %H:%M:%S %z")` -/

def weekdayAbbrevs : List String :=
  ["mon", "tue", "wed", "thu", "fri", "sat", "sun"]

def monthAbbrevs : List String :=
  ["jan", "feb", "mar", "apr", "may", "jun", "jul", "aug", "sep", "oct", "nov", "dec"]

/-- One or two decimal digits. -/
def take1or2 : List Char → Option (Nat × List Char)
  | a :: b :: r =>
    if a.isDigit then
      if b.isDigit then some ((a.toNat - 48) * 10 + (b.toNat - 48), r)
      else some (a.toNat - 48, b :: r)
    else none
  | [a] => if a.isDigit then some (a.toNat - 48, []) else none
  | [] => none

/-- One-or-more whitespace (format-string blanks compile to such a pattern in CPython). -/
def skipWs1 : List Char → Option (List Char)
  | c :: r => if pySpace c then some (r.dropWhile pySpace) else none
  | [] => none

/-- Case-insensitive 3-letter name lookup returning its 1-based index. -/
def takeAbbrev (names : List String) : List Char → Option (Nat × List Char)
  | a :: b :: c :: r =>
    match (names.indexOf (toLowerStr (String.mk [a, b, c]))) with
    | i => if i < names.length then some (i + 1, r) else none
  | _ => none

/-- `%z` offset: `±HHMM` or `±HH:MM` (or `Z`). -/
def parseZOffset : List Char → Option (Int × List Char)
  | 'Z' :: r => some (0, r)
  | sign :: r =>
    if sign = '+' ∨ sign = '-' then
      match take2 r with
      | some (oh, r2) =>
        let r3 := match r2 with
          | ':' :: rr => rr
          | rr => rr
        match take2 r3 with
        | some (om, r4) =>
          if om ≤ 59 then
            some ((if sign = '-' then -((oh * 60 + om : Nat) : Int)
                   else ((oh * 60 + om : Nat) : Int)), r4)
          else none
        | none => none
      | none => none
    else none
  | [] => none

/-- Model of `datetime.datetime.strptime(s, "%a, %d %b %Y %H:%M:%S %z")`: abbreviated
weekday (parsed, not cross-checked against the date), `", "`, 1-2 digit day, month
abbreviation, 4-digit year, `HH:MM:SS`, and a `%z` offset; the datetime constructor's
calendar validation is applied. -/
def strptimeRfc2822 (s : String) : Except String Timestamp :=
  let err : Except String Timestamp := .error "ValueError: time data does not match format"
  match takeAbbrev weekdayAbbrevs s.toList with
  | none => err
  | some (_, r1) =>
    match r1 with
    | ',' :: r2 =>
      match skipWs1 r2 with
      | none => err
      | some r3 =>
        match take1or2 r3 with
        | none => err
        | some (d, r4) =>
          if 1 ≤ d ∧ d ≤ 31 then
            match skipWs1 r4 with
            | none => err
            | some r5 =>
              match takeAbbrev monthAbbrevs r5 with
              | none => err
              | some (mo, r6) =>
                match skipWs1 r6 with
                | none => err
                | some r7 =>
                  match take4 r7 with
                  | none => err
                  | some (y, r8) =>
                    match skipWs1 r8 with
                    | none => err
                    | some r9 =>
                      match take1or2 r9 with
                      | none => err
                      | some (hh, r10) =>
                        match r10 with
                        | ':' :: r11 =>
                          match take1or2 r11 with
                          | none => err
                          | some (mi, r12) =>
                            match r12 with
                            | ':' :: r13 =>
                              match take1or2 r13 with
                              | none => err
                              | some (ss, r14) =>
                                match skipWs1 r14 with
                                | none => err
                                | some r15 =>
                                  match parseZOffset r15 with
                                  | some (off, []) =>
                                    if hh ≤ 23 ∧ mi ≤ 59 ∧ ss ≤ 59 ∧ d ≤ daysInMonth y mo then
                                      .ok ⟨y, mo, d, hh, mi, ss, some off⟩
                                    else err
                                  | _ => err
                            | _ => err
                        | _ => err
          else err
    | _ => err

/-! ## A small backtracking regex engine

Faithful to Python `re` semantics for the patterns used by the source: leftmost match,
the first alternative of `|` is preferred, `*`/`+` are greedy with backtracking, groups
capture source spans, `\b` is a word boundary, and `findall`/`search` scan positions
from the left.  The continuation-passing matcher returns the first (highest-priority)
match, which is exactly the match Python's engine produces.  A quantifier body never
matches the empty string in the patterns below, and the engine prunes empty-width star
iterations the same way Python does. -/

inductive RE where
  | cls (p : Char → Bool)
  | lit (cs : List Char)
  | seq (a b : RE)
  | alt (a b : RE)
  | star (r : RE)
  | grp (n : Nat) (r : RE)
  | wb

/-- Python `\w` (ASCII view; the headers parsed here are ASCII). -/
def isWordChar (c : Char) : Bool :=
  c.isAlphanum || c = '_'

/-- Word boundary `\b` at position `i`. -/
def wordBoundary (s : List Char) (i : Nat) : Bool :=
  let pw := if i = 0 then false else
    match s.get? (i - 1) with
    | some c => isWordChar c
    | none => false
  let cw := match s.get? i with
    | some c => isWordChar c
    | none => false
  pw != cw

/-- Literal string match at a position. -/
def litMatch : List Char → List Char → Nat → Option Nat
  | [], _, i => some i
  | c :: cs, s, i =>
    match s.get? i with
    | some c2 => if c = c2 then litMatch cs s (i + 1) else none
    | none => none

/-- Captured group spans: (group index, start, end), most recent first. -/
abbrev Groups := List (Nat × Nat × Nat)

/-- Backtracking matcher in continuation-passing style; returns the first match in
Python's priority order.  Fuel decreases on every recursive call; wrappers pass a
fuel that dominates the recursion depth for their pattern. -/
def mre : Nat → RE → List Char → Nat → Groups →
    (Nat → Groups → Option (Nat × Groups)) → Option (Nat × Groups)
  | 0, _, _, _, _, _ => none
  | fuel + 1, re, s, i, g, k =>
    match re with
    | .cls p =>
      match s.get? i with
      | some c => if p c then k (i + 1) g else none
      | none => none
    | .lit cs =>
      match litMatch cs s i with
      | some j => k j g
      | none => none
    | .seq a b => mre fuel a s i g (fun j g2 => mre fuel b s j g2 k)
    | .alt a b =>
      match mre fuel a s i g k with
      | some r => some r
      | none => mre fuel b s i g k
    | .star r =>
      match mre fuel r s i g
          (fun j g2 => if i < j then mre fuel (.star r) s j g2 k else none) with
      | some res => some res
      | none => k i g
    | .grp n r => mre fuel r s i g (fun j g2 => k j ((n, i, j) :: g2))
    | .wb => if wordBoundary s i then k i g else none

/-- One-or-more repetition `r+`. -/
def rePlus (r : RE) : RE := .seq r (.star r)

/-- Literal from a string. -/
def litS (s : String) : RE := .lit s.toList

/-- Match attempt anchored at position `i` (Python match attempt during a scan). -/
def matchAt (fuel : Nat) (re : RE) (s : List Char) (i : Nat) : Option (Nat × Groups) :=
  mre fuel re s i [] (fun j g => some (j, g))

/-- Fuel that dominates the matcher's recursion depth for the fixed patterns below. -/
def reFuel (s : List Char) : Nat := (s.length + 2) * 64

/-- Text of a captured group (`""` for an unset group, as in `findall` tuples). -/
def grpStr (s : List Char) (g : Groups) (n : Nat) : String :=
  match g.find? (fun t => t.1 = n) with
  | some (_, a, b) => String.mk ((s.drop a).take (b - a))
  | none => ""

/-- Scanner for `re.findall`: try each position left to right, resume after each
(nonempty) match. -/
def findAllGo (re : RE) (s : List Char) : Nat → Nat → List Groups
  | 0, _ => []
  | fuel + 1, i =>
    if i > s.length then []
    else
      match matchAt (reFuel s) re s i with
      | some (j, g) => g :: findAllGo re s fuel (if i < j then j else i + 1)
      | none => findAllGo re s fuel (i + 1)

/-- `re.findall(pattern, s)` returning group-span lists in match order. -/
def findAll (re : RE) (s : List Char) : List Groups :=
  findAllGo re s (s.length + 1) 0

/-- Scanner for `re.search`: groups of the leftmost match, if any. -/
def searchGo (re : RE) (s : List Char) : Nat → Nat → Option Groups
  | 0, _ => none
  | fuel + 1, i =>
    if i > s.length then none
    else
      match matchAt (reFuel s) re s i with
      | some (_, g) => some g
      | none => searchGo re s fuel (i + 1)

/-- `re.search(pattern, s)`. -/
def reSearch (re : RE) (s : List Char) : Option Groups :=
  searchGo re s (s.length + 1) 0

/-! ## The source's regular expressions -/

/-- Character class of a name token: `[^<,"\'\s]`. -/
def nameCls : RE :=
  .cls (fun c => !(c = '<' || c = ',' || c = '"' || c = Char.ofNat 39 || pySpace c))

/-- Whitespace `\s`. -/
def wsCls : RE := .cls pySpace

/-- Local part class `[A-Za-z0-9._%+-]`. -/
def localCls : RE :=
  .cls (fun c => c.isAlphanum || c = '.' || c = '_' || c = '%' || c = '+' || c = '-')

/-- Domain class `[A-Za-z0-9.-]`. -/
def domCls : RE := .cls (fun c => c.isAlphanum || c = '.' || c = '-')

/-- Top-level-domain class `[A-Z|a-z]` (the source's class literally includes `|`). -/
def tldCls : RE := .cls (fun c => c.isAlpha || c = '|')

/-- The recipient pattern of `parse_recipients`:
`([^<,"\'\s]+(?:\s+[^<,"\'\s]+)*)\s*<([^>]+)>|(\b[A-Za-z0-9._%+-]+@[A-Za-z0-9.-]+\.[A-Z|a-z]{2,}\b)`. -/
def recipRe : RE :=
  .alt
    (.seq (.grp 1 (.seq (rePlus nameCls) (.star (.seq (rePlus wsCls) (rePlus nameCls)))))
      (.seq (.star wsCls)
        (.seq (litS "<") (.seq (.grp 2 (rePlus (.cls (fun c => c ≠ '>')))) (litS ">")))))
    (.grp 3 (.seq .wb (.seq (rePlus localCls) (.seq (litS "@")
      (.seq (rePlus domCls) (.seq (litS ".")
        (.seq (.seq tldCls (.seq tldCls (.star tldCls))) .wb)))))))

/-- Python `.` (any character except a newline; no DOTALL flag is used). -/
def dotCls : RE := .cls (fun c => c ≠ Char.ofNat 10)

/-- Word class `\w`. -/
def wordCls : RE := .cls isWordChar

/-- Domain-ish class `[\w\.\-]`. -/
def wdomCls : RE := .cls (fun c => isWordChar c || c = '.' || c = '-')

/-- `spf=(\w+)\s.*header\.from=([\w\.\-]+)`. -/
def spfRe : RE :=
  .seq (litS "spf=") (.seq (.grp 1 (rePlus wordCls)) (.seq wsCls
    (.seq (.star dotCls) (.seq (litS "header.from=") (.grp 2 (rePlus wdomCls))))))

/-- `dkim=(\w+)\s.*header\.d=([\w\.\-]+)`. -/
def dkimRe : RE :=
  .seq (litS "dkim=") (.seq (.grp 1 (rePlus wordCls)) (.seq wsCls
    (.seq (.star dotCls) (.seq (litS "header.d=") (.grp 2 (rePlus wdomCls))))))

/-- `dmarc=(\w+)`. -/
def dmarcRe : RE :=
  .seq (litS "dmarc=") (.grp 1 (rePlus wordCls))

/-- `<([^>]+)>` used on the `From` header. -/
def angleRe : RE :=
  .seq (litS "<") (.seq (.grp 1 (rePlus (.cls (fun c => c ≠ '>')))) (litS ">"))

/-! ## The parsing helpers of `extract_email_data` -/

/-- Python `"".join`-free quote removal: `s.replace('"', '')`. -/
def removeQuotes (s : String) : String :=
  String.mk (s.toList.filter (fun c => c ≠ '"'))

/-- The source's `parse_recipients`: `re.findall` with the recipient pattern, then
`(match[0].strip().replace('"', ''), match[1])` for the name-address alternative and
`("", match[2])` for the bare-address alternative. -/
def parse_recipients (header_value : Option String) : List (String × String) :=
  match header_value with
  | none => []
  | some h =>
    if h = "" then []
    else
      let s := h.toList
      (findAll recipRe s).foldl (fun acc g =>
        let g2 := grpStr s g 2
        let g3 := grpStr s g 3
        if g2 ≠ "" then acc ++ [(removeQuotes (pyStrip (grpStr s g 1)), g2)]
        else if g3 ≠ "" then acc ++ [("", g3)]
        else acc) []

/-- Result record of `parse_auth_results` (mirrors `EmailAuthenticationModel`: a
`total=False` typed dict whose keys are present only when the sub-pattern matched;
`parse_auth_results` never sets `message_id`, `dkim_selector` or `dmarc_policy`). -/
structure EmailAuthenticationModel where
  message_id : Option String := none
  spf_status : Option String := none
  spf_domain : Option String := none
  dkim_status : Option String := none
  dkim_domain : Option String := none
  dkim_selector : Option String := none
  dmarc_status : Option String := none
  dmarc_policy : Option String := none
deriving DecidableEq

/-- The source's `parse_auth_results`: three independent `re.search` probes; the result
is dropped entirely when no sub-pattern matched (`auth_results if auth_results else None`). -/
def parse_auth_results (header_value : Option String) : Option EmailAuthenticationModel :=
  match header_value with
  | none => none
  | some h =>
    if h = "" then none
    else
      let s := h.toList
      let spf := reSearch spfRe s
      let dkim := reSearch dkimRe s
      let dmarc := reSearch dmarcRe s
      match spf, dkim, dmarc with
      | none, none, none => none
      | _, _, _ =>
        some { message_id := none
               spf_status := spf.map (fun g => grpStr s g 1)
               spf_domain := spf.map (fun g => grpStr s g 2)
               dkim_status := dkim.map (fun g => grpStr s g 1)
               dkim_domain := dkim.map (fun g => grpStr s g 2)
               dkim_selector := none
               dmarc_status := dmarc.map (fun g => grpStr s g 1)
               dmarc_policy := none }

/-- Sender identity resolution from the `From` header (`re.search(r'<([^>]+)>', h)`;
on a match the name is `h.split('<')[0].strip().replace('"', '')`, otherwise the whole
trimmed header is the address). -/
def resolveSender (sender_header : Option String) : String × Option String :=
  match sender_header with
  | none => ("", none)
  | some h =>
    if h = "" then ("", none)
    else
      match reSearch angleRe h.toList with
      | some g =>
        (grpStr h.toList g 1,
         some (removeQuotes (pyStrip (String.mk (h.toList.takeWhile (fun c => c ≠ '<'))))))
      | none => (pyStrip h, none)

/-- Header key-value pair of the Gmail `payload.headers` list. -/
structure HeaderKV where
  name : String
  value : String
deriving DecidableEq

/-- The source's `get_header`: first value whose name matches case-insensitively. -/
def get_header (headers : List HeaderKV) (name : String) : Option String :=
  (headers.find? (fun h => toLowerStr h.name = toLowerStr name)).map (fun h => h.value)

/-- The normalization applied before the first parse stage:
`s.replace(" (UTC)", "+00:00").replace(" (GMT)", "+00:00").replace("T", " ")`. -/
def normalizeDateHeader (s : String) : String :=
  pyReplace (pyReplace (pyReplace s " (UTC)" "+00:00") " (GMT)" "+00:00") "T" " "

/-- The source's `Date` parsing in `extract_email_data`: normalize `" (UTC)"`/`" (GMT)"`
to `"+00:00"` and `"T"` to `" "`, try `fromisoformat`, then fall back to
`strptime(..., "%a, %d %b %Y %H:%M:%S %z")`; any failure yields nothing. -/
def parse_date_header (sent_timestamp_str : Option String) : Option Timestamp :=
  match sent_timestamp_str with
  | none => none
  | some s =>
    if s = "" then none
    else
      match fromisoformat (normalizeDateHeader s) with
      | .ok t => some t
      | .error _ =>
        match strptimeRfc2822 s with
        | .ok t => some t
        | .error _ => none

/-! ## The Gmail message shape (`format="full"` resource) -/

mutual
/-- A node of the body payload tree.  Every dictionary key that the source reads is a
field; `Option` records a possibly-missing key (`parts = none` models a node without a
`"parts"` key, distinguished from an empty list of children). -/
inductive Part where
  | mk (mimeType : Option String) (filename : Option String) (partId : Option String)
       (bodyData : Option String) (bodySize : Option Int)
       (headers : List HeaderKV) (parts : Option PartList) : Part
/-- A list of sibling parts (a separate type so that structural recursion over the
tree is available and computable). -/
inductive PartList where
  | nil : PartList
  | cons (p : Part) (rest : PartList) : PartList
end

def Part.mimeType : Part → Option String
  | .mk m _ _ _ _ _ _ => m

def Part.filename : Part → Option String
  | .mk _ f _ _ _ _ _ => f

def Part.partId : Part → Option String
  | .mk _ _ p _ _ _ _ => p

def Part.bodyData : Part → Option String
  | .mk _ _ _ d _ _ _ => d

def Part.bodySize : Part → Option Int
  | .mk _ _ _ _ s _ _ => s

def Part.headers : Part → List HeaderKV
  | .mk _ _ _ _ _ h _ => h

def Part.childs : Part → Option PartList
  | .mk _ _ _ _ _ _ p => p

mutual
/-- Size of a part (for fuel bounds). -/
def partSize : Part → Nat
  | .mk _ _ _ _ _ _ none => 1
  | .mk _ _ _ _ _ _ (some ps) => 1 + partsSize ps
/-- Size of a sibling list (for fuel bounds). -/
def partsSize : PartList → Nat
  | .nil => 0
  | .cons p rest => 1 + partSize p + partsSize rest
end

/-- The `{}` payload used when the message has no `"payload"` key. -/
def emptyPart : Part := Part.mk none none none none none [] none

/-- The message resource (`format="full"`); `internalDate` is the string the API
returns, `id` may be absent (the source indexes `message["id"]` in some places and
uses `message.get("id")` in others). -/
structure GmailMessage where
  id : Option String
  threadId : Option String
  snippet : Option String
  internalDate : Option String
  labelIds : List String
  payload : Option Part

/-! ## Child-collection records (mirroring mailStructs typed dicts) -/

/-- `EmailAttachmentModel` rows built by `extract_email_data` (the dict carries the
owning `message["id"]`). -/
structure EmailAttachmentModel where
  message_id : String
  filename : Option String
  mime_type : Option String
  attachment_size : Option Int
deriving DecidableEq

structure EmailXHeaderModel where
  message_id : String
  header_name : String
  header_value : String
deriving DecidableEq

structure EmailLabelModel where
  message_id : String
  label_name : String
deriving DecidableEq

/-- `AdditionalPart` (mailStructs lines 39-44): it has no message-id field at all. -/
structure AdditionalPart where
  part_id : Option String
  mime_type : Option String
  filename : Option String
  size : Int
deriving DecidableEq

/-- `EmailRoutingHeaderModel` rows as consumed by `insert_message`. -/
structure EmailRoutingHeaderModel where
  message_id : Option String := none
  header_name : String
  header_value : String
  hop_order : Int
deriving DecidableEq

/-- The `ExtractedEmailData` record.  `routing_headers` is declared by the source's
typed dict but the dictionary returned by `extract_email_data` has no such key, which
is modelled by `none` (a record loaded from elsewhere could carry `some`). -/
structure ExtractedEmailData where
  message_id : Option String
  thread_id : Option String
  sender_email : String
  subject : Option String
  body_text : Option String
  body_html : Option String
  sent_timestamp : Option Timestamp
  internal_date_ms : Int
  date_received : Option String
  mime_type : Option String
  content_transfer_encoding : Option String
  to_recipients : List (String × String)
  cc_recipients : List (String × String)
  bcc_recipients : List (String × String)
  sender : Option String
  sender_name : Option String
  snippet : Option String
  raw_source : Option String
  attachments : List EmailAttachmentModel
  xheaders : List EmailXHeaderModel
  labels : List EmailLabelModel
  authentication_results : Option EmailAuthenticationModel
  additional_parts : List AdditionalPart
  return_path : Option String
  header_sender : Option String
  routing_headers : Option (List EmailRoutingHeaderModel)
deriving DecidableEq

/-! ## The MIME body walker (`get_body_part`) -/

/-- Truthiness of `part.get("body", {}).get("data")`. -/
def truthyData (p : Part) : Bool :=
  truthyOptStr p.bodyData

/-- The source's `get_body_part`: scan parts in order; on a part whose declared MIME
type equals the requested one and whose body data is truthy, decode and return it; on a
part with a `"parts"` key recurse, keeping a truthy result only (`if result:` — a
nested empty-string result is skipped and the scan continues).  Decoding may raise
(`binascii.Error` on bad padding), hence `Except`.  Fuel decreases on every call; the
wrapper passes `partsSize parts + 1`, which dominates the number of calls. -/
def get_body_part : Nat → PartList → String → Except String (Option String)
  | 0, _, _ => .ok none
  | _ + 1, .nil, _ => .ok none
  | fuel + 1, .cons p rest, mime_type =>
    if p.mimeType = some mime_type ∧ truthyData p then do
      let t ← decodeReplaceE (p.bodyData.getD "")
      pure (some t)
    else
      match p.childs with
      | some ps => do
        let r ← get_body_part fuel ps mime_type
        match r with
        | some t =>
          if t ≠ "" then pure (some t)
          else get_body_part fuel rest mime_type
        | none => get_body_part fuel rest mime_type
      | none => get_body_part fuel rest mime_type

/-- Top-level wrapper with sufficient fuel. -/
def getBodyPartTop (parts : PartList) (mime_type : String) : Except String (Option String) :=
  get_body_part (partsSize parts + 1) parts mime_type

/-- Specification-side function, written from the spec's words for claim C8: the raw
body data of the first node in depth-first (pre-order, child order) traversal whose
declared MIME type exactly equals the requested type and which carries (truthy) inline
data. -/
def firstDataDfs : Nat → PartList → String → Option String
  | 0, _, _ => none
  | _ + 1, .nil, _ => none
  | fuel + 1, .cons p rest, mime_type =>
    if p.mimeType = some mime_type ∧ truthyData p then some (p.bodyData.getD "")
    else
      match p.childs with
      | some ps =>
        match firstDataDfs fuel ps mime_type with
        | some d => some d
        | none => firstDataDfs fuel rest mime_type
      | none => firstDataDfs fuel rest mime_type

/-- Top-level wrapper with the same fuel as `getBodyPartTop`. -/
def firstDataDfsTop (parts : PartList) (mime_type : String) : Option String :=
  firstDataDfs (partsSize parts + 1) parts mime_type

mutual
/-- Well-formedness of a part tree, parameterized by a condition on every truthy body
data string in the tree. -/
inductive PartDataOk (P : String → Prop) : Part → Prop where
  | intro (p : Part) :
      (∀ d, p.bodyData = some d → d ≠ "" → P d) →
      PartsDataOk P (p.childs.getD .nil) →
      PartDataOk P p
/-- Lifting of `PartDataOk` to a sibling list. -/
inductive PartsDataOk (P : String → Prop) : PartList → Prop where
  | nil : PartsDataOk P .nil
  | cons {p : Part} {rest : PartList} :
      PartDataOk P p → PartsDataOk P rest → PartsDataOk P (.cons p rest)
end

/-- Data decodes without raising (used by claim C3). -/
def DecOk (d : String) : Prop := (b64decodeE d).isOk = true

/-- Data decodes without raising, to nonempty text (used by claim C8). -/
def DecNonempty (d : String) : Prop :=
  (b64decodeE d).isOk = true ∧ decodeReplaceTot d ≠ ""

/-! ## The orchestrator (`extract_email_data`) -/

/-- `message["id"]` (raises `KeyError` when absent). -/
def reqId (message : GmailMessage) : Except String String :=
  match message.id with
  | some i => .ok i
  | none => .error "KeyError: id"

/-- The attachment-collection half of the top-level parts loop:
`if part.get("filename"): attachments.append({...})`. -/
def attachmentsOf (message : GmailMessage) :
    PartList → Except String (List EmailAttachmentModel)
  | .nil => .ok []
  | .cons p rest =>
    if truthyOptStr p.filename then do
      let mid ← reqId message
      let others ← attachmentsOf message rest
      pure ({ message_id := mid, filename := p.filename, mime_type := p.mimeType,
              attachment_size := p.bodySize } :: others)
    else attachmentsOf message rest

/-- The other-parts half of the top-level parts loop:
`elif not any(x in part.get("mimeType", "") for x in ["text/plain", "text/html"])`. -/
def additionalPartsOf : PartList → List AdditionalPart
  | .nil => []
  | .cons p rest =>
    if truthyOptStr p.filename then additionalPartsOf rest
    else if !(strIn "text/plain" (p.mimeType.getD "") ||
              strIn "text/html" (p.mimeType.getD "")) then
      { part_id := p.partId, mime_type := p.mimeType, filename := p.filename,
        size := p.bodySize.getD 0 } :: additionalPartsOf rest
    else additionalPartsOf rest

/-- The X-header comprehension (`message["id"]` is read per produced element). -/
def xheadersOf (message : GmailMessage) :
    List HeaderKV → Except String (List EmailXHeaderModel)
  | [] => .ok []
  | h :: rest =>
    if startsWithStr "x-" (toLowerStr h.name) then do
      let mid ← reqId message
      let others ← xheadersOf message rest
      pure ({ message_id := mid, header_name := h.name, header_value := h.value } :: others)
    else xheadersOf message rest

/-- The label comprehension over `message.get("labelIds", [])`. -/
def labelsOf (message : GmailMessage) :
    List String → Except String (List EmailLabelModel)
  | [] => .ok []
  | l :: rest => do
    let mid ← reqId message
    let others ← labelsOf message rest
    pure ({ message_id := mid, label_name := l } :: others)

/-- Bodies, attachments and additional parts: the `if "parts" in payload / elif
payload.get("body", {}).get("data")` branches of the source. -/
def extractBodies (message : GmailMessage) (payload : Part) :
    Except String (Option String × Option String × List EmailAttachmentModel × List AdditionalPart) :=
  match payload.childs with
  | some ps => do
    let body_text ← get_body_part (partsSize ps + 1) ps "text/plain"
    let body_html ← get_body_part (partsSize ps + 1) ps "text/html"
    let atts ← attachmentsOf message ps
    pure (body_text, body_html, atts, additionalPartsOf ps)
  | none =>
    match payload.bodyData with
    | some d =>
      if d ≠ "" then
        if payload.mimeType = some "text/plain" then do
          let t ← decodeReplaceE d
          pure (some t, none, [], [])
        else if payload.mimeType = some "text/html" then do
          let t ← decodeReplaceE d
          pure (none, some t, [], [])
        else pure (none, none, [], [])
      else pure (none, none, [], [])
    | none => pure (none, none, [], [])

/-- `int(message.get("internalDate", 0))`. -/
def internalDateOf (message : GmailMessage) : Except String Int :=
  match message.internalDate with
  | none => .ok 0
  | some s => pyIntE s

/-- `base64.urlsafe_b64decode(raw_source).decode('utf-8', errors='ignore') if raw_source else None`. -/
def rawSourceOf (raw_source : Option String) : Except String (Option String) :=
  match raw_source with
  | none => pure none
  | some rs =>
    if rs = "" then pure none
    else do
      let bs ← b64decodeE rs
      pure (some (utf8Ignore bs))

/-- The final record literal of `extract_email_data` (pure once the fallible pieces
are in hand).  Note that the literal has no `routing_headers` key. -/
def assembleRecord (message : GmailMessage) (payload : Part)
    (bodies : Option String × Option String × List EmailAttachmentModel × List AdditionalPart)
    (xh : List EmailXHeaderModel) (lb : List EmailLabelModel)
    (idm : Int) (raw : Option String) : ExtractedEmailData :=
  let headers := payload.headers
  let sender_header := get_header headers "From"
  let sres := resolveSender sender_header
  { message_id := message.id
    thread_id := message.threadId
    sender_email := sres.1
    subject := get_header headers "Subject"
    body_text := bodies.1
    body_html := bodies.2.1
    sent_timestamp := parse_date_header (get_header headers "Date")
    internal_date_ms := idm
    date_received := get_header headers "Received"
    mime_type := payload.mimeType
    content_transfer_encoding := get_header headers "Content-Transfer-Encoding"
    to_recipients := parse_recipients (get_header headers "To")
    cc_recipients := parse_recipients (get_header headers "Cc")
    bcc_recipients := parse_recipients (get_header headers "Bcc")
    sender := sender_header
    sender_name := sres.2
    snippet := message.snippet
    raw_source := raw
    attachments := bodies.2.2.1
    xheaders := xh
    labels := lb
    authentication_results := parse_auth_results (get_header headers "Authentication-Results")
    additional_parts := bodies.2.2.2
    return_path := get_header headers "Return-Path"
    header_sender := get_header headers "Sender"
    routing_headers := none }

/-- The source's `extract_email_data`, with every fallible sub-step in the `Except`
monad in the source's evaluation order. -/
def extract_email_data (message : GmailMessage) (raw_source : Option String) :
    Except String ExtractedEmailData := do
  let payload := message.payload.getD emptyPart
  let bodies ← extractBodies message payload
  let xh ← xheadersOf message payload.headers
  let lb ← labelsOf message message.labelIds
  let idm ← internalDateOf message
  let raw ← rawSourceOf raw_source
  pure (assembleRecord message payload bodies xh lb idm raw)

/-! ## The JSON interchange documents

`save_extracted_email_as_json` runs `json.dump(extracted_email, f, default=str)` and
`import_ExtractedEmailData` runs `json.load(f)` with no further conversion.  Python
runtime values are modelled by `PyVal` (datetimes and tuples are distinct constructors
from strings and lists — exactly the distinction `json` erases), JSON documents by
`Json`.  Both are nested; the conversion functions recurse on an explicit fuel, and
truncate identically at fuel 0, so the round-trip lemma holds for every fuel. -/

inductive Json where
  | null : Json
  | jstr (s : String) : Json
  | jnum (n : Int) : Json
  | jarr (l : List Json) : Json
  | jobj (l : List (String × Json)) : Json

inductive PyVal where
  | pnone : PyVal
  | pstr (s : String) : PyVal
  | pint (n : Int) : PyVal
  | plist (l : List PyVal) : PyVal
  | ptuple (l : List PyVal) : PyVal
  | pdict (l : List (String × PyVal)) : PyVal
  | pdt (t : Timestamp) : PyVal

/-- `json.dump` with `default=str`: tuples serialize as arrays, a datetime is not JSON
serializable so the `default` hook renders it with `str(...)`. -/
def dumpPy : Nat → PyVal → Json
  | 0, _ => .null
  | fuel + 1, v =>
    match v with
    | .pnone => .null
    | .pstr s => .jstr s
    | .pint n => .jnum n
    | .plist l => .jarr (l.map (dumpPy fuel))
    | .ptuple l => .jarr (l.map (dumpPy fuel))
    | .pdict l => .jobj (l.map (fun kv => (kv.1, dumpPy fuel kv.2)))
    | .pdt t => .jstr (pyStrTimestamp t)

/-- `json.load`: arrays load as lists, objects as dicts. -/
def loadPy : Nat → Json → PyVal
  | 0, _ => .pnone
  | fuel + 1, j =>
    match j with
    | .null => .pnone
    | .jstr s => .pstr s
    | .jnum n => .pint n
    | .jarr l => .plist (l.map (loadPy fuel))
    | .jobj l => .pdict (l.map (fun kv => (kv.1, loadPy fuel kv.2)))

/-- Specification-side canonical JSON coercion on Python values: datetimes become
their string rendering, tuples become lists, everything else is kept (claim C4's
amended statement: reloading reproduces exactly this coercion of the record). -/
def pyCoerce : Nat → PyVal → PyVal
  | 0, _ => .pnone
  | fuel + 1, v =>
    match v with
    | .pnone => .pnone
    | .pstr s => .pstr s
    | .pint n => .pint n
    | .plist l => .plist (l.map (pyCoerce fuel))
    | .ptuple l => .plist (l.map (pyCoerce fuel))
    | .pdict l => .pdict (l.map (fun kv => (kv.1, pyCoerce fuel kv.2)))
    | .pdt t => .pstr (pyStrTimestamp t)

/-- Top-level dictionary lookup on a loaded or constructed Python value. -/
def pyGetKey (v : PyVal) (k : String) : Option PyVal :=
  match v with
  | .pdict l => (l.find? (fun kv => kv.1 = k)).map (fun kv => kv.2)
  | _ => none

def pyOptStr : Option String → PyVal
  | some s => .pstr s
  | none => .pnone

def pyOptInt : Option Int → PyVal
  | some n => .pint n
  | none => .pnone

def pyOptTs : Option Timestamp → PyVal
  | some t => .pdt t
  | none => .pnone

/-- Recipient lists: Python lists of `(name, address)` tuples. -/
def pyPairs (l : List (String × String)) : PyVal :=
  .plist (l.map (fun p => .ptuple [.pstr p.1, .pstr p.2]))

def pyAtt (a : EmailAttachmentModel) : PyVal :=
  .pdict [("message_id", .pstr a.message_id), ("filename", pyOptStr a.filename),
          ("mime_type", pyOptStr a.mime_type), ("attachment_size", pyOptInt a.attachment_size)]

def pyXh (x : EmailXHeaderModel) : PyVal :=
  .pdict [("message_id", .pstr x.message_id), ("header_name", .pstr x.header_name),
          ("header_value", .pstr x.header_value)]

def pyLb (l : EmailLabelModel) : PyVal :=
  .pdict [("message_id", .pstr l.message_id), ("label_name", .pstr l.label_name)]

def pyAdd (a : AdditionalPart) : PyVal :=
  .pdict [("part_id", pyOptStr a.part_id), ("mime_type", pyOptStr a.mime_type),
          ("filename", pyOptStr a.filename), ("size", .pint a.size)]

/-- Dictionary entry present only when the optional field was set (the
`parse_auth_results` dict only ever contains the keys it assigned). -/
def optEntry (k : String) : Option String → List (String × PyVal)
  | some s => [(k, .pstr s)]
  | none => []

def pyAuth (a : EmailAuthenticationModel) : PyVal :=
  .pdict (optEntry "spf_status" a.spf_status ++ optEntry "spf_domain" a.spf_domain ++
          optEntry "dkim_status" a.dkim_status ++ optEntry "dkim_domain" a.dkim_domain ++
          optEntry "dmarc_status" a.dmarc_status)

def pyRouting (rh : EmailRoutingHeaderModel) : PyVal :=
  .pdict [("message_id", pyOptStr rh.message_id), ("header_name", .pstr rh.header_name),
          ("header_value", .pstr rh.header_value), ("hop_order", .pint rh.hop_order)]

/-- The `ExtractedEmailData` dictionary as the Python runtime holds it (the literal's
key order in `extract_email_data`; a `routing_headers` key only if the record carries
one, which a record built by `extract_email_data` never does). -/
def toPy (r : ExtractedEmailData) : PyVal :=
  .pdict
    ([("message_id", pyOptStr r.message_id),
      ("thread_id", pyOptStr r.thread_id),
      ("sender_email", .pstr r.sender_email),
      ("subject", pyOptStr r.subject),
      ("body_text", pyOptStr r.body_text),
      ("body_html", pyOptStr r.body_html),
      ("sent_timestamp", pyOptTs r.sent_timestamp),
      ("internal_date_ms", .pint r.internal_date_ms),
      ("date_received", pyOptStr r.date_received),
      ("mime_type", pyOptStr r.mime_type),
      ("content_transfer_encoding", pyOptStr r.content_transfer_encoding),
      ("to_recipients", pyPairs r.to_recipients),
      ("cc_recipients", pyPairs r.cc_recipients),
      ("bcc_recipients", pyPairs r.bcc_recipients),
      ("sender", pyOptStr r.sender),
      ("sender_name", pyOptStr r.sender_name),
      ("snippet", pyOptStr r.snippet),
      ("raw_source", pyOptStr r.raw_source),
      ("attachments", .plist (r.attachments.map pyAtt)),
      ("xheaders", .plist (r.xheaders.map pyXh)),
      ("labels", .plist (r.labels.map pyLb)),
      ("authentication_results",
        match r.authentication_results with
        | some a => pyAuth a
        | none => .pnone),
      ("additional_parts", .plist (r.additional_parts.map pyAdd)),
      ("return_path", pyOptStr r.return_path),
      ("header_sender", pyOptStr r.header_sender)] ++
     (match r.routing_headers with
      | some l => [("routing_headers", .plist (l.map pyRouting))]
      | none => []))

/-- Fuel comfortably dominating the nesting depth of `toPy` documents. -/
def jsonFuel : Nat := 8

/-- `save_extracted_email_as_json` followed by `import_ExtractedEmailData`: dump the
record's dictionary to the per-message JSON document and load it back (file transport
carries the document unchanged). -/
def saveThenImport (r : ExtractedEmailData) : PyVal :=
  loadPy jsonFuel (dumpPy jsonFuel (toPy r))

/-! ## JSON text rendering (for the TEXT recipient columns of the emails table) -/

/-- Minimal `json.dumps` string escaping (backslash, quote, and ASCII control chars
that occur in practice). -/
def jsonEscape (s : String) : String :=
  String.mk (s.toList.foldr (fun c acc =>
    if c = '"' then '\\' :: '"' :: acc
    else if c = '\\' then '\\' :: '\\' :: acc
    else if c = Char.ofNat 10 then '\\' :: 'n' :: acc
    else if c = Char.ofNat 13 then '\\' :: 'r' :: acc
    else if c = Char.ofNat 9 then '\\' :: 't' :: acc
    else c :: acc) [])

/-- `json.dumps` (default separators) for the array-of-arrays documents produced from
recipient lists; objects do not occur in those columns. -/
def jsonDumps : Nat → Json → String
  | 0, _ => ""
  | fuel + 1, j =>
    match j with
    | .null => "null"
    | .jstr s => "\"" ++ jsonEscape s ++ "\""
    | .jnum n => toString n
    | .jarr [] => "[]"
    | .jarr (x :: xs) =>
      "[" ++ (xs.foldl (fun acc y => acc ++ ", " ++ jsonDumps fuel y) (jsonDumps fuel x)) ++ "]"
    | .jobj _ => ""

/-- `json.dumps(recipient_list)` as stored in the emails table's TEXT columns. -/
def dumpsRecipients (l : List (String × String)) : String :=
  jsonDumps jsonFuel (dumpPy jsonFuel (pyPairs l))

/-! ## The SQLite database (`sqlite_db.py`)

Tables are lists of typed rows in insertion order.  `PRAGMA foreign_keys = ON` is in
force (`open_db`): `emails.sender_email` references `email_address(email)`, the five
child tables reference `emails(message_id)` with ON DELETE CASCADE, and the internal
delete performed by `INSERT OR REPLACE` on a conflicting parent row fires those
cascades.  SQL `=` comparison on a NULL key matches nothing, hence `sqlEq`. -/

/-- SQL equality on nullable text values (`NULL = x` is never true). -/
def sqlEq : Option String → Option String → Bool
  | some a, some b => a = b
  | _, _ => false

structure EmailRow where
  message_id : Option String
  thread_id : Option String
  sender_email : String
  subject : Option String
  body_text : Option String
  body_html : Option String
  sent_timestamp : Option Timestamp
  internal_date_ms : Int
  date_received : Option String
  mime_type : Option String
  content_transfer_encoding : Option String
  charset : Option String
  to_recipients : String
  cc_recipients : String
  bcc_recipients : String
  return_path : Option String
  header_sender : Option String
deriving DecidableEq

structure AttachmentRow where
  message_id : Option String
  filename : Option String
  mime_type : Option String
  attachment_size : Option Int
deriving DecidableEq

structure XHeaderRow where
  message_id : Option String
  header_name : String
  header_value : String
deriving DecidableEq

structure LabelRow where
  message_id : Option String
  label_name : String
deriving DecidableEq

structure RoutingRow where
  message_id : Option String
  header_name : String
  header_value : String
  hop_order : Int
deriving DecidableEq

structure AuthRow where
  message_id : Option String
  spf_status : Option String
  spf_domain : Option String
  dkim_status : Option String
  dkim_domain : Option String
  dkim_selector : Option String
  dmarc_status : Option String
  dmarc_policy : Option String
deriving DecidableEq

/-- The database state: the email-related tables touched by `insert_message`
(`email_address` rows are (email, display_name); the other columns of that table and
the contacts table are never written by `insert_message`). -/
structure DB where
  email_address : List (String × Option String)
  emails : List EmailRow
  email_attachments : List AttachmentRow
  email_xheaders : List XHeaderRow
  email_labels : List LabelRow
  email_routing_headers : List RoutingRow
  email_authentication : List AuthRow
deriving DecidableEq

def emptyDB : DB :=
  { email_address := [], emails := [], email_attachments := [], email_xheaders := [],
    email_labels := [], email_routing_headers := [], email_authentication := [] }

/-- The parent row written by step 2 of `insert_message` (`charset` is read with
`.get` but `ExtractedEmailData` has no such key, so it is always NULL; recipient
lists are stored as their `json.dumps` text). -/
def emailRowOf (r : ExtractedEmailData) : EmailRow :=
  { message_id := r.message_id
    thread_id := r.thread_id
    sender_email := r.sender_email
    subject := r.subject
    body_text := r.body_text
    body_html := r.body_html
    sent_timestamp := r.sent_timestamp
    internal_date_ms := r.internal_date_ms
    date_received := r.date_received
    mime_type := r.mime_type
    content_transfer_encoding := r.content_transfer_encoding
    charset := none
    to_recipients := dumpsRecipients r.to_recipients
    cc_recipients := dumpsRecipients r.cc_recipients
    bcc_recipients := dumpsRecipients r.bcc_recipients
    return_path := r.return_path
    header_sender := r.header_sender }

/-- All (display name, address) pairs gathered by step 1 of `insert_message`. -/
def allRecipientsOf (r : ExtractedEmailData) : List (Option String × String) :=
  (r.sender_name, r.sender_email) ::
    (r.to_recipients ++ r.cc_recipients ++ r.bcc_recipients).map (fun p => (some p.1, p.2))

/-- `INSERT OR IGNORE INTO email_address (email, display_name)` for each tuple. -/
def insAddrs : List (String × Option String) → List (Option String × String) →
    List (String × Option String)
  | tbl, [] => tbl
  | tbl, p :: rest =>
    insAddrs (if tbl.any (fun q => q.1 = p.2) then tbl else tbl ++ [(p.2, p.1)]) rest

/-- Step 1 of `insert_message`: seed `email_address` with every distinct tuple whose
address is truthy (`if i and i[1]`); Python iterates a `set`, whose order is
unspecified — first-occurrence order is fixed here and no claim depends on it. -/
def seedAddresses (db : DB) (r : ExtractedEmailData) : DB :=
  { db with email_address :=
      insAddrs db.email_address (dedupKeepFirst ((allRecipientsOf r).filter (fun p => p.2 ≠ ""))) }

/-- ON DELETE CASCADE of a parent row deletion: drop every child row whose
`message_id` equals the deleted key. -/
def cascadeChildren (db : DB) (id : Option String) : DB :=
  { db with
    email_attachments := db.email_attachments.filter (fun a => !sqlEq a.message_id id)
    email_xheaders := db.email_xheaders.filter (fun x => !sqlEq x.message_id id)
    email_labels := db.email_labels.filter (fun l => !sqlEq l.message_id id)
    email_routing_headers := db.email_routing_headers.filter (fun h => !sqlEq h.message_id id)
    email_authentication := db.email_authentication.filter (fun a => !sqlEq a.message_id id) }

/-- Step 2 of `insert_message`: `INSERT OR REPLACE INTO emails`.  The new row's
`sender_email` foreign key is checked (the statement aborts on violation, which the
caller turns into a full-transaction rollback); a conflicting existing parent row is
deleted first, and with foreign keys on that internal delete fires the child tables'
ON DELETE CASCADE. -/
def replaceEmailRow (db : DB) (r : ExtractedEmailData) : Except String DB :=
  if !(db.email_address.any (fun q => q.1 = r.sender_email)) then
    .error "sqlite3.IntegrityError: FOREIGN KEY constraint failed"
  else
    let existed := db.emails.any (fun e => sqlEq e.message_id r.message_id)
    let db2 := if existed then cascadeChildren db r.message_id else db
    .ok { db2 with
          emails := (db2.emails.filter (fun e => !sqlEq e.message_id r.message_id)) ++
            [emailRowOf r] }

/-- An attachment row as inserted by step 3 (the bound parameter is the message-level
`message_id`, not the collection entry's own field). -/
def attRowOf (id : Option String) (a : EmailAttachmentModel) : AttachmentRow :=
  { message_id := id, filename := a.filename, mime_type := a.mime_type,
    attachment_size := a.attachment_size }

def xhRowOf (id : Option String) (x : EmailXHeaderModel) : XHeaderRow :=
  { message_id := id, header_name := x.header_name, header_value := x.header_value }

def lbRowOf (id : Option String) (l : EmailLabelModel) : LabelRow :=
  { message_id := id, label_name := l.label_name }

def rtRowOf (id : Option String) (h : EmailRoutingHeaderModel) : RoutingRow :=
  { message_id := id, header_name := h.header_name, header_value := h.header_value,
    hop_order := h.hop_order }

def authRowOf (id : Option String) (a : EmailAuthenticationModel) : AuthRow :=
  { message_id := id, spf_status := a.spf_status, spf_domain := a.spf_domain,
    dkim_status := a.dkim_status, dkim_domain := a.dkim_domain,
    dkim_selector := a.dkim_selector, dmarc_status := a.dmarc_status,
    dmarc_policy := a.dmarc_policy }

/-- The authentication rows a record contributes (one row when the dict is truthy,
none otherwise). -/
def authRowsOf (r : ExtractedEmailData) : List AuthRow :=
  match r.authentication_results with
  | some a => [authRowOf r.message_id a]
  | none => []

/-- Steps 3-6 of `insert_message`: per child collection, `DELETE ... WHERE
message_id = ?` then insert the record's current rows (`routing_headers` is read with
`.get(..., [])`). -/
def replaceChildren (db : DB) (r : ExtractedEmailData) : DB :=
  let id := r.message_id
  { db with
    email_attachments :=
      (db.email_attachments.filter (fun a => !sqlEq a.message_id id)) ++
        r.attachments.map (attRowOf id)
    email_xheaders :=
      (db.email_xheaders.filter (fun x => !sqlEq x.message_id id)) ++
        r.xheaders.map (xhRowOf id)
    email_labels :=
      (db.email_labels.filter (fun l => !sqlEq l.message_id id)) ++
        r.labels.map (lbRowOf id)
    email_routing_headers :=
      (db.email_routing_headers.filter (fun h => !sqlEq h.message_id id)) ++
        (r.routing_headers.getD []).map (rtRowOf id) }

/-- Step 7 of `insert_message`: authentication rows are deleted-and-reinserted only
when the record carries a truthy authentication dict (`if auth_data:`). -/
def replaceAuth (db : DB) (r : ExtractedEmailData) : DB :=
  match r.authentication_results with
  | some a =>
    { db with
      email_authentication :=
        (db.email_authentication.filter (fun x => !sqlEq x.message_id r.message_id)) ++
          [authRowOf r.message_id a] }
  | none => db

/-- The transaction body of `insert_message` (everything inside the `try`), plus the
skip-if-present check that precedes it when `update_if_exists` is false. -/
def insertRun (db : DB) (r : ExtractedEmailData) (update_if_exists : Bool) :
    Except String DB :=
  if !update_if_exists ∧ db.emails.any (fun e => sqlEq e.message_id r.message_id) then
    .ok db
  else do
    let db1 := seedAddresses db r
    let db2 ← replaceEmailRow db1 r
    pure (replaceAuth (replaceChildren db2 r) r)

/-- The source's `insert_message`: on any failure the whole per-message transaction is
rolled back (`except: self.conn.rollback()`), leaving the prior state. -/
def insert_message (db : DB) (r : ExtractedEmailData) (update_if_exists : Bool) : DB :=
  match insertRun db r update_if_exists with
  | .ok db2 => db2
  | .error _ => db

/-! ## Concrete fixtures used by the claim theorems, witnesses and counterexamples -/

/-- A message with two `Received` headers (and a sender so that persistence succeeds). -/
def msgTwoReceived : GmailMessage :=
  { id := some "m2", threadId := some "t2", snippet := some "sn",
    internalDate := some "1713190200000", labelIds := [],
    payload := some (Part.mk (some "text/plain") none none (some "aGk=") (some 2)
      [⟨"From", "A <a@x.com>"⟩,
       ⟨"Received", "from relay1.example by mx"⟩,
       ⟨"Received", "from relay2.example by relay1.example"⟩] none) }

/-- A message whose `internalDate` string is not numeric. -/
def msgBadInternalDate : GmailMessage :=
  { id := some "m3", threadId := none, snippet := none,
    internalDate := some "not-a-number", labelIds := [], payload := none }

/-- A small well-formed message. -/
def msgWitnessOk : GmailMessage :=
  { id := some "w3", threadId := some "tw", snippet := none,
    internalDate := some "123", labelIds := ["INBOX"],
    payload := some (Part.mk (some "text/plain") none none (some "aGk=") (some 2)
      [⟨"From", "bob@x.com"⟩] none) }

/-- An attachment part (truthy filename). -/
def attachPart : Part :=
  Part.mk (some "application/pdf") (some "f.pdf") (some "1") none (some 100) [] none

/-- A message with an `Authentication-Results` header, an X-header, a label and an
attachment, so that every child collection is populated. -/
def msgAuthHeader : GmailMessage :=
  { id := some "m7", threadId := some "t7", snippet := none,
    internalDate := some "5", labelIds := ["SPAM"],
    payload := some (Part.mk (some "multipart/mixed") none none none none
      [⟨"Authentication-Results", "mx.example.com; spf=pass a header.from=ex.com; dmarc=fail"⟩,
       ⟨"X-Spam-Flag", "yes"⟩]
      (some (.cons attachPart
        (.cons (Part.mk (some "text/plain") none (some "0") (some "aGk=") (some 2) [] none)
          .nil)))) }

/-- A message whose header list has no `From` header. -/
def msgNoFrom : GmailMessage :=
  { id := some "m10", threadId := some "t10", snippet := none,
    internalDate := some "99", labelIds := [],
    payload := some (Part.mk (some "text/plain") none none (some "aGk=") (some 2)
      [⟨"To", "someone@x.com"⟩, ⟨"Subject", "hello"⟩] none) }

/-- Claim C8's example tree: a top-level text/plain leaf and a nested
multipart/alternative containing a text/html leaf. -/
def c8Tree : PartList :=
  .cons (Part.mk (some "text/plain") none (some "0") (some "cGxhaW4=") (some 5) [] none)
    (.cons (Part.mk (some "multipart/alternative") none (some "1") none none []
      (some (.cons (Part.mk (some "text/html") none (some "1.0") (some "aHRtbA==") (some 4) [] none)
        .nil)))
      .nil)

/-- A tree whose first matching leaf carries truthy inline data (`"."`) that decodes to
the empty string, followed by a second matching leaf decoding to `"hi"`. -/
def c8CexTree : PartList :=
  .cons (Part.mk (some "multipart/alternative") none (some "0") none none []
      (some (.cons (Part.mk (some "text/plain") none (some "0.0") (some ".") none [] none) .nil)))
    (.cons (Part.mk (some "text/plain") none (some "1") (some "aGk=") none [] none) .nil)

/-- A record with an aware sent timestamp and a recipient pair, for the round-trip
counterexample. -/
def c4Rec : ExtractedEmailData :=
  { message_id := some "m4", thread_id := some "t4", sender_email := "a@x.com",
    subject := some "s", body_text := some "b", body_html := none,
    sent_timestamp := some ⟨2025, 4, 15, 10, 30, 0, some 0⟩, internal_date_ms := 7,
    date_received := none, mime_type := some "text/plain",
    content_transfer_encoding := none,
    to_recipients := [("Bob", "b@y.com")], cc_recipients := [], bcc_recipients := [],
    sender := some "a@x.com", sender_name := none, snippet := some "sn",
    raw_source := some "raw", attachments := [], xheaders := [], labels := [],
    authentication_results := none, additional_parts := [], return_path := none,
    header_sender := none, routing_headers := none }

/-- First record of the upsert pair: proper sender, one attachment, one X-header, one
label, authentication results present. -/
def r5a : ExtractedEmailData :=
  { message_id := some "m5", thread_id := some "t5", sender_email := "a@x.com",
    subject := some "s1", body_text := none, body_html := none,
    sent_timestamp := none, internal_date_ms := 1,
    date_received := none, mime_type := some "multipart/mixed",
    content_transfer_encoding := none,
    to_recipients := [("Bob", "b@y.com")], cc_recipients := [], bcc_recipients := [],
    sender := some "A <a@x.com>", sender_name := some "A", snippet := some "sn",
    raw_source := none,
    attachments := [⟨"m5", some "f.pdf", some "application/pdf", some 10⟩],
    xheaders := [⟨"m5", "X-A", "1"⟩],
    labels := [⟨"m5", "INBOX"⟩],
    authentication_results := some { spf_status := some "pass", spf_domain := some "x.com" },
    additional_parts := [], return_path := none, header_sender := none,
    routing_headers := none }

/-- Second record of the counterexample pair: same message id, empty sender address,
no attachments, no authentication results, a changed label set. -/
def r5bEmptySender : ExtractedEmailData :=
  { r5a with sender_email := "", sender_name := none, sender := none,
             to_recipients := [], attachments := [],
             labels := [⟨"m5", "SPAM"⟩], authentication_results := none }

/-- Second record of the witness pair: proper (different) sender, no attachments, no
authentication results, a changed label set. -/
def r5cSecond : ExtractedEmailData :=
  { r5a with sender_email := "c@z.com", sender_name := some "C", sender := some "C <c@z.com>",
             attachments := [], xheaders := [⟨"m5", "X-B", "2"⟩],
             labels := [⟨"m5", "SPAM"⟩, ⟨"m5", "INBOX"⟩],
             authentication_results := none }

/-- A record whose empty sender address makes `insert_message` fail on a fresh store. -/
def r6Fail : ExtractedEmailData :=
  { r5a with message_id := some "m6", sender_email := "", sender_name := none,
             to_recipients := [] }

/-! ## Denotational match semantics, used to analyse the recipient pattern -/

/-- The name run of the recipient pattern's first alternative:
`[^<,"\'\s]+(?:\s+[^<,"\'\s]+)*`. -/
def recipName : RE :=
  .seq (rePlus nameCls) (.star (.seq (rePlus wsCls) (rePlus nameCls)))

/-- The recipient pattern's first (name-and-address) alternative. -/
def recipAltA : RE :=
  .seq (.grp 1 recipName)
    (.seq (.star wsCls)
      (.seq (litS "<") (.seq (.grp 2 (rePlus (.cls (fun c => c ≠ '>')))) (litS ">"))))

/-- The recipient pattern's second (bare-address) alternative. -/
def recipAltB : RE :=
  .grp 3 (.seq .wb (.seq (rePlus localCls) (.seq (litS "@")
    (.seq (rePlus domCls) (.seq (litS ".")
      (.seq (.seq tldCls (.seq tldCls (.star tldCls))) .wb))))))

/-- The character predicate of `nameCls` under a name. -/
def nameChar (c : Char) : Bool :=
  !(c = '<' || c = ',' || c = '"' || c = Char.ofNat 39 || pySpace c)

/-- Declarative match relation for the embedded regexes: `RMatch re s i j` holds when
`re` can match the span `[i, j)` of `s` (groups ignored). -/
inductive RMatch : RE → List Char → Nat → Nat → Prop where
  | cls {p : Char → Bool} {s : List Char} {i : Nat} {c : Char} :
      s.get? i = some c → p c = true → RMatch (.cls p) s i (i + 1)
  | lit {cs s : List Char} {i j : Nat} :
      litMatch cs s i = some j → RMatch (.lit cs) s i j
  | seq {a b : RE} {s : List Char} {i j l : Nat} :
      RMatch a s i j → RMatch b s j l → RMatch (.seq a b) s i l
  | altL {a b : RE} {s : List Char} {i j : Nat} :
      RMatch a s i j → RMatch (.alt a b) s i j
  | altR {a b : RE} {s : List Char} {i j : Nat} :
      RMatch b s i j → RMatch (.alt a b) s i j
  | starNil {r : RE} {s : List Char} {i : Nat} : RMatch (.star r) s i i
  | starCons {r : RE} {s : List Char} {i j l : Nat} :
      RMatch r s i j → RMatch (.star r) s j l → RMatch (.star r) s i l
  | grp {n : Nat} {r : RE} {s : List Char} {i j : Nat} :
      RMatch r s i j → RMatch (.grp n r) s i j
  | wb {s : List Char} {i : Nat} : wordBoundary s i = true → RMatch .wb s i i

/-- The group indices a regex can record. -/
def grpIdxs : RE → List Nat
  | .cls _ => []
  | .lit _ => []
  | .seq a b => grpIdxs a ++ grpIdxs b
  | .alt a b => grpIdxs a ++ grpIdxs b
  | .star r => grpIdxs r
  | .grp n r => n :: grpIdxs r
  | .wb => []

/-! # Helper lemmas -/

/-- Ok-result inversion for the `Except` monad's bind. -/
theorem except_bind_ok {α β : Type} {x : Except String α} {f : α → Except String β} {r : β}
    (h : (x >>= f) = .ok r) : ∃ a, x = .ok a ∧ f a = .ok r := by
  cases x with
  | error e => simp [Bind.bind, Except.bind] at h
  | ok a => exact ⟨a, rfl, by simpa [Bind.bind, Except.bind] using h⟩

/-- Ok-ness as an existential. -/
theorem isOk_iff_exists {α : Type} {x : Except String α} :
    x.isOk = true ↔ ∃ a, x = .ok a := by
  cases x <;> simp [Except.isOk, Except.toBool]

/-- Plain structural induction over sibling lists (by strong induction on the size;
the mutual recursor would also demand a part-level motive). -/
theorem partList_ind {motive : PartList → Prop} (hnil : motive .nil)
    (hcons : ∀ p rest, motive rest → motive (.cons p rest)) : ∀ ps, motive ps := by
  have H : ∀ n ps, partsSize ps ≤ n → motive ps := by
    intro n
    induction n with
    | zero =>
      intro ps h
      cases ps with
      | nil => exact hnil
      | cons p rest => simp [partsSize] at h
    | succ n ih =>
      intro ps h
      cases ps with
      | nil => exact hnil
      | cons p rest =>
        refine hcons p rest (ih rest ?_)
        have h2 : partsSize (.cons p rest) = 1 + partSize p + partsSize rest := by
          simp [partsSize]
        omega
  exact fun ps => H (partsSize ps) ps le_rfl

/-- Inversion: the data condition of a well-formed part. -/
theorem PartDataOk.dataCond {P : String → Prop} {p : Part} (h : PartDataOk P p) :
    ∀ d, p.bodyData = some d → d ≠ "" → P d := by
  cases h with
  | intro _ h1 _ => exact h1

/-- Inversion: well-formedness of a part's children. -/
theorem PartDataOk.childrenCond {P : String → Prop} {p : Part} (h : PartDataOk P p) :
    PartsDataOk P (p.childs.getD .nil) := by
  cases h with
  | intro _ _ h2 => exact h2

/-- Decoding succeeds exactly when the base64 stage does. -/
theorem decodeReplaceE_ok {d : String} (h : (b64decodeE d).isOk = true) :
    ∃ s, decodeReplaceE d = .ok s := by
  obtain ⟨bs, hbs⟩ := isOk_iff_exists.mp h
  exact ⟨utf8Replace bs, by simp [decodeReplaceE, hbs, Bind.bind, Except.bind, pure, Except.pure]⟩

/-- The body walker never raises on a tree whose data fields all base64-decode. -/
theorem get_body_part_ok :
    ∀ (fuel : Nat) (ps : PartList) (m : String), PartsDataOk DecOk ps →
      ∃ v, get_body_part fuel ps m = .ok v := by
  intro fuel
  induction fuel with
  | zero => exact fun ps m _ => ⟨none, rfl⟩
  | succ n ih =>
    intro ps m hps
    cases hps with
    | nil => exact ⟨none, rfl⟩
    | @cons p rest hp hrest =>
      by_cases hc : p.mimeType = some m ∧ truthyData p
      · obtain ⟨d, hd⟩ : ∃ d, p.bodyData = some d := by
          rcases hx : p.bodyData with _ | d
          · exact absurd hc.2 (by simp [truthyData, truthyOptStr, hx])
          · exact ⟨d, rfl⟩
        have hdne : d ≠ "" := by
          have := hc.2
          simp [truthyData, truthyOptStr, hd] at this
          simpa using this
        obtain ⟨s, hs⟩ := decodeReplaceE_ok (hp.dataCond d hd hdne)
        refine ⟨some s, ?_⟩
        simp [get_body_part, hc, hd, hs, Bind.bind, Except.bind, pure, Except.pure]
      · have hchild : PartsDataOk DecOk (p.childs.getD .nil) := hp.childrenCond
        cases hch : p.childs with
        | some ps2 =>
          have hps2 : PartsDataOk DecOk ps2 := by rw [hch] at hchild; simpa using hchild
          obtain ⟨v, hv⟩ := ih ps2 m hps2
          obtain ⟨w, hw⟩ := ih rest m hrest
          cases v with
          | none => exact ⟨w, by simp [get_body_part, hc, hch, hv, hw, Bind.bind, Except.bind]⟩
          | some t =>
            by_cases ht : t = ""
            · exact ⟨w, by simp [get_body_part, hc, hch, hv, hw, ht, Bind.bind, Except.bind]⟩
            · exact ⟨some t, by
                simp [get_body_part, hc, hch, hv, ht, Bind.bind, Except.bind, pure, Except.pure]⟩
        | none =>
          obtain ⟨w, hw⟩ := ih rest m hrest
          exact ⟨w, by simp [get_body_part, hc, hch, hw]⟩

/-- The attachment loop never raises when the message id is present. -/
theorem attachmentsOf_ok {message : GmailMessage} (hid : message.id.isSome = true) :
    ∀ ps, ∃ l, attachmentsOf message ps = .ok l := by
  obtain ⟨i, hi⟩ := Option.isSome_iff_exists.mp hid
  refine partList_ind ⟨[], rfl⟩ ?_
  intro p rest ⟨l, hl⟩
  by_cases hf : truthyOptStr p.filename = true
  · refine ⟨{ message_id := i, filename := p.filename, mime_type := p.mimeType,
              attachment_size := p.bodySize } :: l, ?_⟩
    simp [attachmentsOf, hf, reqId, hi, hl, Bind.bind, Except.bind, pure, Except.pure]
  · exact ⟨l, by simp [attachmentsOf, hf, hl]⟩

/-- The X-header comprehension never raises when the message id is present. -/
theorem xheadersOf_ok {message : GmailMessage} (hid : message.id.isSome = true) :
    ∀ hs, ∃ l, xheadersOf message hs = .ok l := by
  obtain ⟨i, hi⟩ := Option.isSome_iff_exists.mp hid
  intro hs
  induction hs with
  | nil => exact ⟨[], rfl⟩
  | cons h rest ih =>
    obtain ⟨l, hl⟩ := ih
    by_cases hx : startsWithStr "x-" (toLowerStr h.name) = true
    · exact ⟨{ message_id := i, header_name := h.name, header_value := h.value } :: l, by
        simp [xheadersOf, hx, reqId, hi, hl, Bind.bind, Except.bind, pure, Except.pure]⟩
    · exact ⟨l, by simp [xheadersOf, hx, hl]⟩

/-- The label comprehension never raises when the message id is present. -/
theorem labelsOf_ok {message : GmailMessage} (hid : message.id.isSome = true) :
    ∀ ls, ∃ l, labelsOf message ls = .ok l := by
  obtain ⟨i, hi⟩ := Option.isSome_iff_exists.mp hid
  intro ls
  induction ls with
  | nil => exact ⟨[], rfl⟩
  | cons lab rest ih =>
    obtain ⟨l, hl⟩ := ih
    exact ⟨{ message_id := i, label_name := lab } :: l, by
      simp [labelsOf, reqId, hi, hl, Bind.bind, Except.bind, pure, Except.pure]⟩

/-- The body-extraction step never raises on a well-formed payload with a present id. -/
theorem extractBodies_ok {message : GmailMessage} {payload : Part}
    (hid : message.id.isSome = true) (hp : PartDataOk DecOk payload) :
    ∃ v, extractBodies message payload = .ok v := by
  cases hch : payload.childs with
  | some ps =>
    have hps : PartsDataOk DecOk ps := by
      have := hp.childrenCond
      rw [hch] at this
      simpa using this
    obtain ⟨v1, h1⟩ := get_body_part_ok (partsSize ps + 1) ps "text/plain" hps
    obtain ⟨v2, h2⟩ := get_body_part_ok (partsSize ps + 1) ps "text/html" hps
    obtain ⟨l, hl⟩ := attachmentsOf_ok hid ps
    exact ⟨(v1, v2, l, additionalPartsOf ps), by
      simp [extractBodies, hch, h1, h2, hl, Bind.bind, Except.bind, pure, Except.pure]⟩
  | none =>
    cases hd : payload.bodyData with
    | none => exact ⟨(none, none, [], []), by simp [extractBodies, hch, hd, pure, Except.pure]⟩
    | some d =>
      by_cases hdne : d = ""
      · exact ⟨(none, none, [], []), by
          simp [extractBodies, hch, hd, hdne, pure, Except.pure]⟩
      · have hdec := hp.dataCond d hd hdne
        obtain ⟨s, hs⟩ := decodeReplaceE_ok hdec
        by_cases hpl : payload.mimeType = some "text/plain"
        · exact ⟨(some s, none, [], []), by
            simp [extractBodies, hch, hd, hdne, hpl, hs, Bind.bind, Except.bind, pure, Except.pure]⟩
        · by_cases hht : payload.mimeType = some "text/html"
          · exact ⟨(none, some s, [], []), by
              simp [extractBodies, hch, hd, hdne, hpl, hht, hs, Bind.bind, Except.bind,
                pure, Except.pure]⟩
          · exact ⟨(none, none, [], []), by
              simp [extractBodies, hch, hd, hdne, hpl, hht, pure, Except.pure]⟩

/-! ## Soundness of the matcher for the declarative semantics -/

/-- If the backtracking matcher succeeds, the regex declaratively matches some span
from the start position, the continuation fired there, and every recorded group entry
either pre-existed or bears one of the regex's own group indices. -/
theorem mre_sound :
    ∀ (fuel : Nat) (re : RE) (s : List Char) (i : Nat) (g : Groups)
      (k : Nat → Groups → Option (Nat × Groups)) (res : Nat × Groups),
      mre fuel re s i g k = some res →
      ∃ j g2, RMatch re s i j ∧ (∀ t ∈ g2, t ∈ g ∨ t.1 ∈ grpIdxs re) ∧
        k j g2 = some res := by
  intro fuel
  induction fuel with
  | zero =>
    intro re s i g k res h
    exact absurd h (by simp [mre])
  | succ n ih =>
    intro re s i g k res h
    cases re with
    | cls p =>
      simp only [mre] at h
      split at h
      next c hg =>
        split at h
        next hp => exact ⟨i + 1, g, RMatch.cls hg hp, fun t ht => .inl ht, h⟩
        next hp => exact Option.noConfusion h
      next hg => exact Option.noConfusion h
    | lit cs =>
      simp only [mre] at h
      split at h
      next j hm => exact ⟨j, g, RMatch.lit hm, fun t ht => .inl ht, h⟩
      next hm => exact Option.noConfusion h
    | seq a b =>
      simp only [mre] at h
      obtain ⟨j1, g1, hm1, hg1, hk1⟩ := ih a s i g _ res h
      obtain ⟨j2, g2, hm2, hg2, hk2⟩ := ih b s j1 g1 k res hk1
      refine ⟨j2, g2, RMatch.seq hm1 hm2, ?_, hk2⟩
      intro t ht
      rcases hg2 t ht with h2 | h2
      · rcases hg1 t h2 with h3 | h3
        · exact .inl h3
        · exact .inr (by simp [grpIdxs, h3])
      · exact .inr (by simp [grpIdxs, h2])
    | alt a b =>
      simp only [mre] at h
      split at h
      next r2 hA =>
        injection h with h2
        obtain ⟨j, g2, hm, hg2, hk⟩ := ih a s i g k r2 hA
        refine ⟨j, g2, RMatch.altL hm, ?_, h2 ▸ hk⟩
        intro t ht
        exact (hg2 t ht).imp id (fun hx => by simp [grpIdxs, hx])
      next hA =>
        obtain ⟨j, g2, hm, hg2, hk⟩ := ih b s i g k res h
        refine ⟨j, g2, RMatch.altR hm, ?_, hk⟩
        intro t ht
        exact (hg2 t ht).imp id (fun hx => by simp [grpIdxs, hx])
    | star r =>
      simp only [mre] at h
      split at h
      next r2 hA =>
        injection h with h2
        obtain ⟨j1, g1, hm1, hg1, hk1⟩ := ih r s i g _ r2 hA
        by_cases hij : i < j1
        · rw [if_pos hij] at hk1
          obtain ⟨j2, g2, hm2, hg2, hk2⟩ := ih (.star r) s j1 g1 k r2 hk1
          refine ⟨j2, g2, RMatch.starCons hm1 hm2, ?_, h2 ▸ hk2⟩
          intro t ht
          rcases hg2 t ht with h3 | h3
          · rcases hg1 t h3 with h4 | h4
            · exact .inl h4
            · exact .inr (by simpa [grpIdxs] using h4)
          · exact .inr (by simpa [grpIdxs] using h3)
        · rw [if_neg hij] at hk1
          exact Option.noConfusion hk1
      next hA =>
        exact ⟨i, g, RMatch.starNil, fun t ht => .inl ht, h⟩
    | grp m r =>
      simp only [mre] at h
      obtain ⟨j, g1, hm, hg1, hk⟩ := ih r s i g _ res h
      refine ⟨j, (m, i, j) :: g1, RMatch.grp hm, ?_, hk⟩
      intro t ht
      rcases List.mem_cons.mp ht with ht | ht
      · subst ht
        exact .inr (by simp [grpIdxs])
      · exact (hg1 t ht).imp id (fun hx => by simp [grpIdxs, hx])
    | wb =>
      simp only [mre] at h
      by_cases hw : wordBoundary s i = true
      · rw [if_pos hw] at h
        exact ⟨i, g, RMatch.wb hw, fun t ht => .inl ht, h⟩
      · rw [if_neg hw] at h
        exact Option.noConfusion h

/-- Inversion: a class matches exactly one character satisfying it. -/
theorem rmatch_cls {p : Char → Bool} {s : List Char} {i j : Nat}
    (h : RMatch (.cls p) s i j) :
    j = i + 1 ∧ ∃ c, s.get? i = some c ∧ p c = true := by
  cases h with
  | cls hg hp => exact ⟨rfl, _, hg, hp⟩

/-- Inversion of a sequence match. -/
theorem rmatch_seq {a b : RE} {s : List Char} {i l : Nat}
    (h : RMatch (.seq a b) s i l) : ∃ j, RMatch a s i j ∧ RMatch b s j l := by
  cases h with
  | seq h1 h2 => exact ⟨_, h1, h2⟩

/-- Inversion of a group match. -/
theorem rmatch_grp {n : Nat} {r : RE} {s : List Char} {i j : Nat}
    (h : RMatch (.grp n r) s i j) : RMatch r s i j := by
  cases h with
  | grp h1 => exact h1

/-- Inversion of a literal match. -/
theorem rmatch_lit {cs s : List Char} {i j : Nat}
    (h : RMatch (.lit cs) s i j) : litMatch cs s i = some j := by
  cases h with
  | lit h1 => exact h1

/-- A star over a class consumes only characters of the class. -/
theorem star_cls_chars {p : Char → Bool} :
    ∀ {re : RE} {s : List Char} {i j : Nat}, RMatch re s i j →
      re = .star (.cls p) →
      i ≤ j ∧ ∀ m, i ≤ m → m < j → ∃ c, s.get? m = some c ∧ p c = true := by
  intro re s i j h
  induction h with
  | cls _ _ => intro he; exact RE.noConfusion he
  | lit _ => intro he; exact RE.noConfusion he
  | seq _ _ _ _ => intro he; exact RE.noConfusion he
  | altL _ _ => intro he; exact RE.noConfusion he
  | altR _ _ => intro he; exact RE.noConfusion he
  | grp _ _ => intro he; exact RE.noConfusion he
  | wb _ => intro he; exact RE.noConfusion he
  | starNil =>
    intro he
    exact ⟨Nat.le_refl _, fun m h1 h2 => absurd (Nat.lt_of_le_of_lt h1 h2) (Nat.lt_irrefl _)⟩
  | starCons h1 h2 ih1 ih2 =>
    rename_i r2 s2 i2 j2 l2
    intro he
    injection he with he2
    subst he2
    obtain ⟨hle, hall⟩ := ih2 rfl
    obtain ⟨hj, c, hc, hpc⟩ := rmatch_cls h1
    subst hj
    refine ⟨by omega, ?_⟩
    intro m hm1 hm2
    by_cases hmi : m = i2
    · subst hmi
      exact ⟨c, hc, hpc⟩
    · exact hall m (by omega) hm2

/-- One-or-more over a class: the span is nonempty and all its characters satisfy the
class. -/
theorem plus_cls_chars {p : Char → Bool} {s : List Char} {i j : Nat}
    (h : RMatch (rePlus (.cls p)) s i j) :
    i < j ∧ ∀ m, i ≤ m → m < j → ∃ c, s.get? m = some c ∧ p c = true := by
  obtain ⟨j1, h1, h2⟩ := rmatch_seq h
  obtain ⟨hj1, c, hc, hpc⟩ := rmatch_cls h1
  obtain ⟨hle, hall⟩ := star_cls_chars h2 rfl
  subst hj1
  refine ⟨by omega, ?_⟩
  intro m hm1 hm2
  by_cases hmi : m = i
  · subst hmi
    exact ⟨c, hc, hpc⟩
  · exact hall m (by omega) hm2

/-- A (possibly empty) tail of further name tokens either consumes nothing or ends on
a name-class character. -/
theorem star_name_tail :
    ∀ {re : RE} {s : List Char} {a b : Nat}, RMatch re s a b →
      re = .star (.seq (rePlus wsCls) (rePlus nameCls)) →
      a = b ∨ (a < b ∧ ∃ c, s.get? (b - 1) = some c ∧ nameChar c = true) := by
  intro re s a b h
  induction h with
  | cls _ _ => intro he; exact RE.noConfusion he
  | lit _ => intro he; exact RE.noConfusion he
  | seq _ _ _ _ => intro he; exact RE.noConfusion he
  | altL _ _ => intro he; exact RE.noConfusion he
  | altR _ _ => intro he; exact RE.noConfusion he
  | grp _ _ => intro he; exact RE.noConfusion he
  | wb _ => intro he; exact RE.noConfusion he
  | starNil => intro he; exact .inl rfl
  | starCons h1 h2 ih1 ih2 =>
    rename_i r2 s2 a2 j2 b2
    intro he
    injection he with he2
    subst he2
    obtain ⟨m2, hw, hn⟩ := rmatch_seq h1
    obtain ⟨haw, _⟩ := plus_cls_chars hw
    obtain ⟨hmn, hnall⟩ := plus_cls_chars (p := nameChar) hn
    rcases ih2 rfl with he3 | ⟨hlt, c, hc, hnc⟩
    · subst he3
      obtain ⟨c, hc, hnc⟩ := hnall (j2 - 1) (by omega) (by omega)
      exact .inr ⟨by omega, c, hc, hnc⟩
    · exact .inr ⟨by omega, c, hc, hnc⟩

/-- A name run is nonempty and its last character is a name-class character. -/
theorem recipName_last {s : List Char} {i j : Nat} (h : RMatch recipName s i j) :
    i < j ∧ ∃ c, s.get? (j - 1) = some c ∧ nameChar c = true := by
  obtain ⟨q, h1, h2⟩ := rmatch_seq h
  obtain ⟨hiq, hall⟩ := plus_cls_chars (p := nameChar) h1
  rcases star_name_tail h2 rfl with he | ⟨hlt, c, hc, hnc⟩
  · obtain ⟨c, hc, hnc⟩ := hall (j - 1) (by omega) (by omega)
    exact ⟨by omega, c, hc, hnc⟩
  · exact ⟨by omega, c, hc, hnc⟩

/-- A match of the literal `<` reads the character `<`. -/
theorem rmatch_lit_char {s : List Char} {i j : Nat} (h : RMatch (litS "<") s i j) :
    s.get? i = some '<' := by
  have h2 := rmatch_lit h
  simp only [litMatch] at h2
  split at h2
  next c hg =>
    split at h2
    next hp => rw [hg, ← hp]
    next hp => exact Option.noConfusion h2
  next hg => exact Option.noConfusion h2

/-- Index lookup past a cons. -/
theorem get?_cons_add {α : Type} (a : α) (l : List α) (n : Nat) :
    (a :: l).get? (n + 1) = l.get? n := rfl

/-- Index lookup past a left factor. -/
theorem get?_append_add {α : Type} :
    ∀ (l r : List α) (n : Nat), (l ++ r).get? (l.length + n) = r.get? n := by
  intro l
  induction l with
  | nil => intro r n; simp
  | cons a tl ih =>
    intro r n
    have he : (a :: tl).length + n = (tl.length + n) + 1 := by
      simp only [List.length_cons]
      omega
    rw [he]
    exact ih r n

/-- Index lookup inside a left factor. -/
theorem get?_append_lt {α : Type} :
    ∀ (l r : List α) (n : Nat), n < l.length → (l ++ r).get? n = l.get? n := by
  intro l
  induction l with
  | nil => intro r n h; exact absurd h (Nat.not_lt_zero n)
  | cons a tl ih =>
    intro r n h
    cases n with
    | zero => rfl
    | succ n2 => exact ih r n2 (by simpa using h)

/-- A successful index lookup is a member. -/
theorem mem_of_get? {α : Type} :
    ∀ (l : List α) (n : Nat) (a : α), l.get? n = some a → a ∈ l := by
  intro l
  induction l with
  | nil => intro n a h; exact Option.noConfusion h
  | cons b tl ih =>
    intro n a h
    cases n with
    | zero =>
      have hb : b = a := Option.some.inj h
      exact hb ▸ List.mem_cons_self _ _
    | succ n2 => exact List.mem_cons_of_mem _ (ih n2 a h)

/-- In a quoted header whose name and address contain no `<`, the only `<` is the
angle bracket that opens the address. -/
theorem quoted_lt_unique (nm ad : List Char) (hnm : '<' ∉ nm) (had : '<' ∉ ad) :
    ∀ m, ('"' :: (nm ++ ('"' :: ' ' :: '<' :: (ad ++ ['>'])))).get? m = some '<' →
      m = nm.length + 3 := by
  intro m hm
  cases m with
  | zero => simp at hm
  | succ m3 =>
    rw [get?_cons_add] at hm
    by_cases hlt : m3 < nm.length
    · rw [get?_append_lt _ _ _ hlt] at hm
      exact absurd (mem_of_get? _ _ _ hm) hnm
    · obtain ⟨d, hd⟩ : ∃ d, m3 = nm.length + d := ⟨m3 - nm.length, by omega⟩
      subst hd
      rw [get?_append_add] at hm
      cases d with
      | zero => simp at hm
      | succ d2 =>
        cases d2 with
        | zero => simp at hm
        | succ d3 =>
          cases d3 with
          | zero => omega
          | succ d4 =>
            have hm2 : (ad ++ ['>']).get? d4 = some '<' := hm
            rcases List.mem_append.mp (mem_of_get? _ _ _ hm2) with h | h
            · exact absurd h had
            · simp at h

/-- The quoted character just before the address's `<` and the closing quote itself. -/
theorem quoted_key_chars (nm ad : List Char) :
    ('"' :: (nm ++ ('"' :: ' ' :: '<' :: (ad ++ ['>'])))).get? (nm.length + 1) = some '"' ∧
    ('"' :: (nm ++ ('"' :: ' ' :: '<' :: (ad ++ ['>'])))).get? (nm.length + 2) = some ' ' := by
  constructor
  · rw [get?_cons_add]
    have he : nm.length = nm.length + 0 := rfl
    rw [he, get?_append_add]
    rfl
  · rw [get?_cons_add]
    rw [get?_append_add]
    rfl

/-- On a quoted single-recipient header whose name and address contain no `<`, the
name-and-address alternative of the recipient pattern matches nowhere: the name run
would have to end on a name character followed only by whitespace before `<`, but the
closing quote always stands in between. -/
theorem recipAltA_no_match (nm ad : List Char) (hnm : '<' ∉ nm) (had : '<' ∉ ad) :
    ∀ i m, ¬ RMatch recipAltA ('"' :: (nm ++ ('"' :: ' ' :: '<' :: (ad ++ ['>'])))) i m := by
  intro i m h
  obtain ⟨q, hname, hrest⟩ := rmatch_seq h
  have hname2 := rmatch_grp hname
  obtain ⟨hiq, c1, hc1, hnc1⟩ := recipName_last hname2
  obtain ⟨q2, hws, hrest2⟩ := rmatch_seq hrest
  obtain ⟨hle, hwall⟩ := star_cls_chars (p := pySpace) hws rfl
  obtain ⟨q3, hltm, _⟩ := rmatch_seq hrest2
  have hq2 := rmatch_lit_char hltm
  have hq2eq : q2 = nm.length + 3 := quoted_lt_unique nm ad hnm had q2 hq2
  obtain ⟨hA, hB⟩ := quoted_key_chars nm ad
  rcases (by omega : q ≤ nm.length + 1 ∨ q = nm.length + 2 ∨ q = nm.length + 3) with
    hq | hq | hq
  · obtain ⟨c, hc, hpc⟩ := hwall (nm.length + 1) (by omega) (by omega)
    rw [hA] at hc
    have hcq : c = '"' := (Option.some.inj hc).symm
    subst hcq
    exact absurd hpc (by decide)
  · have h5 : q - 1 = nm.length + 1 := by omega
    rw [h5, hA] at hc1
    have hcq : c1 = '"' := (Option.some.inj hc1).symm
    subst hcq
    exact absurd hnc1 (by decide)
  · have h5 : q - 1 = nm.length + 2 := by omega
    rw [h5, hB] at hc1
    have hcq : c1 = ' ' := (Option.some.inj hc1).symm
    subst hcq
    exact absurd hnc1 (by decide)


/-- Every group list the `findall` scanner returns comes from a successful anchored
match attempt. -/
theorem findAllGo_mem (re : RE) (s : List Char) :
    ∀ fuel i g, g ∈ findAllGo re s fuel i →
      ∃ i2 j, matchAt (reFuel s) re s i2 = some (j, g) := by
  intro fuel
  induction fuel with
  | zero =>
    intro i g h
    simp [findAllGo] at h
  | succ n ih =>
    intro i g h
    simp only [findAllGo] at h
    split at h
    · simp at h
    · split at h
      next j2 gg hm =>
        rcases List.mem_cons.mp h with he | he
        · subst he
          exact ⟨i, j2, hm⟩
        · exact ih _ _ he
      next hm => exact ih _ _ h

/-- When the first alternative is unmatchable, every recorded group of a recipient
match bears index 3 (the bare-address group). -/
theorem matchAt_recipRe_only3 (s : List Char)
    (hno : ∀ i m, ¬ RMatch recipAltA s i m) :
    ∀ fuel i j g, matchAt fuel recipRe s i = some (j, g) →
      ∀ t ∈ g, t.1 = 3 := by
  intro fuel i j g h t ht
  cases fuel with
  | zero => exact absurd h (by simp [matchAt, mre])
  | succ n =>
    have hre : recipRe = RE.alt recipAltA recipAltB := rfl
    simp only [matchAt, hre, mre] at h
    split at h
    next r2 hA =>
      obtain ⟨j2, g2, hm, _, _⟩ := mre_sound n recipAltA s i [] _ r2 hA
      exact absurd hm (hno i j2)
    next hA =>
      obtain ⟨j2, g3, hm, hg3, hk⟩ := mre_sound n recipAltB s i [] _ (j, g) h
      have hg : g3 = g := (Prod.mk.injEq _ _ _ _).mp (Option.some.inj hk) |>.2
      rcases hg3 t (hg ▸ ht) with hin | hidx
      · exact absurd hin (List.not_mem_nil t)
      · have hB : grpIdxs recipAltB = [3] := rfl
        rw [hB] at hidx
        simpa using hidx

/-- The accumulator loop of `parse_recipients` only emits empty display names when no
match captured group 2. -/
theorem foldl_pairs_empty (s : List Char) :
    ∀ (l : List Groups) (acc : List (String × String)),
      (∀ g ∈ l, grpStr s g 2 = "") → (∀ p ∈ acc, p.1 = "") →
      ∀ p ∈ l.foldl (fun acc g =>
        if grpStr s g 2 ≠ "" then
          acc ++ [(removeQuotes (pyStrip (grpStr s g 1)), grpStr s g 2)]
        else if grpStr s g 3 ≠ "" then acc ++ [("", grpStr s g 3)] else acc) acc,
        p.1 = "" := by
  intro l
  induction l with
  | nil =>
    intro acc _ hacc p hp
    exact hacc p hp
  | cons g rest ih =>
    intro acc hl hacc p hp
    rw [List.foldl_cons] at hp
    refine ih _ (fun g2 hg2 => hl g2 (List.mem_cons_of_mem _ hg2)) ?_ p hp
    have hg := hl g (List.mem_cons_self _ _)
    intro p2 hp2
    rw [hg] at hp2
    simp only [ne_eq, not_true, if_false, reduceIte] at hp2
    split at hp2
    · rcases List.mem_append.mp hp2 with hin | hin
      · exact hacc p2 hin
      · have : p2 = ("", grpStr s g 3) := by simpa using hin
        rw [this]
    · exact hacc p2 hp2

/-- On every quoted single-recipient header whose display name and address are free of
`<`, each pair `parse_recipients` returns has an EMPTY display name: the quoted name
never reaches the name-capturing alternative. -/
theorem parse_recipients_quoted :
    ∀ (name addr : String),
      (∀ c ∈ name.toList, c ≠ '<') → (∀ c ∈ addr.toList, c ≠ '<') →
      ∀ p ∈ parse_recipients (some ("\"" ++ name ++ "\" <" ++ addr ++ ">")),
        p.1 = "" := by
  intro name addr hn ha p hp
  have hdata : ∀ a b : String, (a ++ b).toList = a.toList ++ b.toList := fun a b => rfl
  have hlist : ("\"" ++ name ++ "\" <" ++ addr ++ ">").toList =
      '"' :: (name.toList ++ ('"' :: ' ' :: '<' :: (addr.toList ++ ['>']))) := by
    rw [hdata, hdata, hdata, hdata]
    have h1 : ("\"" : String).toList = ['"'] := rfl
    have h2 : ("\" <" : String).toList = ['"', ' ', '<'] := rfl
    have h3 : (">" : String).toList = ['>'] := rfl
    rw [h1, h2, h3]
    simp
  have hne : ("\"" ++ name ++ "\" <" ++ addr ++ ">") ≠ "" := by
    intro he
    have h2 := congrArg String.toList he
    rw [hlist] at h2
    exact List.noConfusion h2
  simp only [parse_recipients] at hp
  rw [if_neg hne, hlist] at hp
  have hnm : '<' ∉ name.toList := fun hmem => (hn _ hmem) rfl
  have had : '<' ∉ addr.toList := fun hmem => (ha _ hmem) rfl
  have hno := recipAltA_no_match name.toList addr.toList hnm had
  refine foldl_pairs_empty _ _ _ ?_ (fun p2 hp2 => absurd hp2 (List.not_mem_nil p2)) p hp
  intro g hg
  obtain ⟨i2, j2, hmt⟩ := findAllGo_mem _ _ _ _ _ hg
  have h3 := matchAt_recipRe_only3 _ hno _ _ _ _ hmt
  have hf : g.find? (fun t => t.1 = 2) = none := by
    rw [List.find?_eq_none]
    intro x hx
    simp [h3 x hx]
  simp [grpStr, hf]


/-! # Claim C1 -/

/-- C1 counterexample: on the quoted-display-name header `"Alice Smith" <alice@x.com>`
the Recipient Parser does NOT return the pair (Alice Smith, alice@x.com) — the quote
characters make the name-and-address alternative unmatchable, so the claim as stated
is false. -/
theorem claimC1_counterexample :
    parse_recipients (some "\"Alice Smith\" <alice@x.com>") ≠
      [("Alice Smith", "alice@x.com")] := by decide

/-- C1 (amended): the quoted display name is NEVER returned.  Universally, for every
header of the shape `"Name" <addr>` whose name and address contain no `<`, every pair
`parse_recipients` returns has an empty display name — the name pattern
`[^<,"\'\s]+` excludes the quote character, so the name-and-address alternative
cannot cross the closing quote and only the bare-address alternative can match.  The
result need not even be a single pair `("", addr)`: on representative headers it is,
but a quoted name that itself looks like an address contributes its own pair, and a
bracketed address without a dotted alphabetic top-level domain yields no pair at all.
An unquoted `Name <addr>` header, by contrast, keeps its name. -/
theorem claimC1_theorem :
    (∀ (name addr : String),
       (∀ c ∈ name.toList, c ≠ '<') → (∀ c ∈ addr.toList, c ≠ '<') →
       ∀ p ∈ parse_recipients (some ("\"" ++ name ++ "\" <" ++ addr ++ ">")),
         p.1 = "") ∧
    parse_recipients (some "\"Alice Smith\" <alice@x.com>") = [("", "alice@x.com")] ∧
    parse_recipients (some "\"Bob\" <bob@example.org>") = [("", "bob@example.org")] ∧
    parse_recipients (some "\"Carol D. Jones\" <c.jones@mail.example.co>") =
      [("", "c.jones@mail.example.co")] ∧
    parse_recipients (some "\"bob@x.com\" <c@y.com>") =
      [("", "bob@x.com"), ("", "c@y.com")] ∧
    parse_recipients (some "\"Alice\" <alice@localhost>") = [] ∧
    parse_recipients (some "Dan Smith <dan@y.org>") = [("Dan Smith", "dan@y.org")] :=
  ⟨parse_recipients_quoted, by decide, by decide, by decide, by decide, by decide,
    by decide⟩

/-- C1 witness: the universal half applied to the concrete quoted header, its
hypotheses discharged there. -/
theorem claimC1_witness :
    (∀ c ∈ ("Alice Smith" : String).toList, c ≠ '<') ∧
    (∀ c ∈ ("alice@x.com" : String).toList, c ≠ '<') ∧
    ∀ p ∈ parse_recipients
        (some ("\"" ++ "Alice Smith" ++ "\" <" ++ "alice@x.com" ++ ">")), p.1 = "" :=
  ⟨by decide, by decide,
    claimC1_theorem.1 "Alice Smith" "alice@x.com" (by decide) (by decide)⟩

/-! # Claim C9 -/

/-- C9: the Date Normalizer tries the ISO stage (after suffix/separator
normalization) first and takes its result on success; when the ISO stage fails it
returns exactly the RFC-2822 stage's result; on `Tue, 15 Apr 2025 10:30:00 -0700` it
yields 2025-04-15 10:30:00 at UTC-7 (the `T`-to-space replacement mangles `Tue`, so
stage one fails and stage two parses it), and on `garbage` it yields nothing. -/
theorem claimC9_theorem :
    (∀ s t, fromisoformat (normalizeDateHeader s) = .ok t →
       parse_date_header (some s) = some t) ∧
    (∀ s, s ≠ "" → (fromisoformat (normalizeDateHeader s)).isOk = false →
       parse_date_header (some s) =
         (match strptimeRfc2822 s with
          | .ok t => some t
          | .error _ => none)) ∧
    parse_date_header (some "Tue, 15 Apr 2025 10:30:00 -0700") =
      some ⟨2025, 4, 15, 10, 30, 0, some (-420)⟩ ∧
    parse_date_header (some "garbage") = none := by
  refine ⟨?_, ?_, by decide, by decide⟩
  · intro s t h
    by_cases hs : s = ""
    · have hemp : fromisoformat (normalizeDateHeader "") =
          .error "ValueError: Invalid isoformat string" := by decide
      rw [hs, hemp] at h
      exact Except.noConfusion h
    · simp [parse_date_header, hs, h]
  · intro s hs hiso
    cases hF : fromisoformat (normalizeDateHeader s) with
    | ok t => rw [hF] at hiso; simp [Except.isOk, Except.toBool] at hiso
    | error e => simp [parse_date_header, hs, hF]

/-- C9 witness: the stage lemmas applied at concrete inputs. -/
theorem claimC9_witness :
    parse_date_header (some "2025-04-15 10:30:00+00:00") =
      some ⟨2025, 4, 15, 10, 30, 0, some 0⟩ ∧
    parse_date_header (some "garbage") =
      (match strptimeRfc2822 "garbage" with
       | .ok t => some t
       | .error _ => none) :=
  ⟨claimC9_theorem.1 "2025-04-15 10:30:00+00:00" ⟨2025, 4, 15, 10, 30, 0, some 0⟩ (by decide),
   claimC9_theorem.2.1 "garbage" (by decide) (by decide)⟩

/-! # Claim C6 -/

/-- C6: if any step of `insert_message` fails, the per-message transaction is rolled
back and the database is exactly its prior state — no partial write is observable. -/
theorem claimC6_theorem :
    ∀ (db : DB) (r : ExtractedEmailData) (update_if_exists : Bool) (e : String),
      insertRun db r update_if_exists = .error e →
      insert_message db r update_if_exists = db := by
  intro db r upd e h
  simp [insert_message, h]

/-- C6 witness: a record with an empty sender address violates the `sender_email`
foreign key on a fresh store; the failed insert leaves the store untouched. -/
theorem claimC6_witness :
    insertRun emptyDB r6Fail true =
      .error "sqlite3.IntegrityError: FOREIGN KEY constraint failed" ∧
    insert_message emptyDB r6Fail true = emptyDB :=
  ⟨by decide, claimC6_theorem emptyDB r6Fail true
    "sqlite3.IntegrityError: FOREIGN KEY constraint failed" (by decide)⟩

/-! # Claim C2 -/

/-- C2: the claim fails on the code.  The record returned by `extract_email_data` has
no `routing_headers` key at all (first conjunct: always `none`), and `date_received`
holds only the FIRST `Received` header; consequently persisting a message with two
`Received` headers writes zero routing-header rows, not two. -/
theorem claimC2_theorem :
    (∀ msg raw r, extract_email_data msg raw = .ok r → r.routing_headers = none) ∧
    (extract_email_data msgTwoReceived none).map (fun r => r.date_received) =
      .ok (some "from relay1.example by mx") ∧
    (extract_email_data msgTwoReceived none).map
      (fun r => (insert_message emptyDB r true).email_routing_headers) = .ok [] := by
  refine ⟨?_, by decide, by decide⟩
  intro msg raw r h
  simp only [extract_email_data, Bind.bind] at h
  obtain ⟨bodies, h1, h⟩ := except_bind_ok h
  obtain ⟨xh, h2, h⟩ := except_bind_ok h
  obtain ⟨lb, h3, h⟩ := except_bind_ok h
  obtain ⟨idm, h4, h⟩ := except_bind_ok h
  obtain ⟨raw2, h5, h⟩ := except_bind_ok h
  have : assembleRecord msg (msg.payload.getD emptyPart) bodies xh lb idm raw2 = r := by
    simpa [pure, Except.pure] using h
  rw [← this]
  simp [assembleRecord]

/-- C2 witness: the routing-headers conjunct applied to the two-`Received` message. -/
theorem claimC2_witness :
    (extract_email_data msgTwoReceived none).map (fun r => r.routing_headers) =
      .ok none := by
  cases h : extract_email_data msgTwoReceived none with
  | error e =>
    have hok : (extract_email_data msgTwoReceived none).isOk = true := by decide
    rw [h] at hok
    simp [Except.isOk, Except.toBool] at hok
  | ok r => simpa [Except.map, h] using claimC2_theorem.1 msgTwoReceived none r h

/-! # Claim C3 -/

/-- C3 counterexample: a message whose `internalDate` is not numeric makes
`extract_email_data` raise (`int("not-a-number")` is a `ValueError`), so the claim
that every malformed sub-field is degraded rather than propagated is false. -/
theorem claimC3_counterexample :
    (extract_email_data msgBadInternalDate none).isOk = false := by decide

/-- C3 (amended): `extract_email_data` degrades unparseable dates, recipient lists and
authentication headers to defaults and never raises for them, but it is not total:
the residual failure points are a non-numeric `internalDate`, a missing message id
while label/X-header/attachment rows are built, and base64 payloads (body or raw
source) with bad padding.  On every message free of those three defects it returns a
record. -/
theorem claimC3_theorem :
    ∀ (msg : GmailMessage) (raw : Option String),
      msg.id.isSome = true →
      (∀ s, msg.internalDate = some s → (pyIntE s).isOk = true) →
      PartDataOk DecOk (msg.payload.getD emptyPart) →
      (∀ rs, raw = some rs → (b64decodeE rs).isOk = true) →
      (extract_email_data msg raw).isOk = true := by
  intro msg raw hid hdate hpay hraw
  obtain ⟨bodies, hb⟩ := extractBodies_ok hid hpay
  obtain ⟨xh, hxh⟩ := xheadersOf_ok hid (msg.payload.getD emptyPart).headers
  obtain ⟨lb, hlb⟩ := labelsOf_ok hid msg.labelIds
  obtain ⟨idm, hidm⟩ : ∃ v, internalDateOf msg = .ok v := by
    cases hD : msg.internalDate with
    | none => exact ⟨0, by simp [internalDateOf, hD]⟩
    | some s =>
      refine isOk_iff_exists.mp ?_
      simpa [internalDateOf, hD] using hdate s hD
  obtain ⟨rw2, hrw⟩ : ∃ v, rawSourceOf raw = .ok v := by
    cases hR : raw with
    | none => exact ⟨none, rfl⟩
    | some rs =>
      by_cases hrs : rs = ""
      · exact ⟨none, by simp [rawSourceOf, hrs, pure, Except.pure]⟩
      · obtain ⟨bs, hbs⟩ := isOk_iff_exists.mp (hraw rs hR)
        exact ⟨some (utf8Ignore bs), by
          simp [rawSourceOf, hrs, hbs, Bind.bind, Except.bind, pure, Except.pure]⟩
  apply isOk_iff_exists.mpr
  refine ⟨assembleRecord msg (msg.payload.getD emptyPart) bodies xh lb idm rw2, ?_⟩
  simp [extract_email_data, hb, hxh, hlb, hidm, hrw, Bind.bind, Except.bind,
    pure, Except.pure]

/-- C3 witness: the hypotheses hold on a small well-formed message and the amended
theorem yields a record for it. -/
theorem claimC3_witness :
    msgWitnessOk.id.isSome = true ∧
    PartDataOk DecOk (msgWitnessOk.payload.getD emptyPart) ∧
    (extract_email_data msgWitnessOk none).isOk = true := by
  have hpay : PartDataOk DecOk (msgWitnessOk.payload.getD emptyPart) := by
    refine PartDataOk.intro _ ?_ ?_
    · intro d hd hne
      have hd2 : d = "aGk=" := by
        simpa [msgWitnessOk, Part.bodyData] using hd.symm
      rw [hd2]
      have : (b64decodeE "aGk=").isOk = true := by decide
      exact this
    · exact PartsDataOk.nil
  refine ⟨by decide, hpay, ?_⟩
  refine claimC3_theorem msgWitnessOk none (by decide) ?_ hpay (fun rs h => by cases h)
  intro s hs
  have hs2 : s = "123" := by
    simpa [msgWitnessOk] using hs.symm
  rw [hs2]
  decide

/-! # Claim C10 -/

/-- Members of the seeded address table have nonempty addresses provided the prior
table did (`INSERT OR IGNORE` is only executed `if i and i[1]`). -/
theorem insAddrs_no_empty :
    ∀ (l : List (Option String × String)) (tbl : List (String × Option String)),
      (∀ p ∈ tbl, p.1 ≠ "") → (∀ q ∈ l, q.2 ≠ "") →
      ∀ p ∈ insAddrs tbl l, p.1 ≠ "" := by
  intro l
  induction l with
  | nil => exact fun tbl h1 _ p hp => h1 p hp
  | cons q rest ih =>
    intro tbl h1 h2 p hp
    simp only [insAddrs] at hp
    refine ih _ ?_ (fun x hx => h2 x (List.mem_cons_of_mem _ hx)) p hp
    intro x hx
    by_cases hc : tbl.any (fun t => t.1 = q.2) = true
    · rw [if_pos hc] at hx
      exact h1 x hx
    · rw [if_neg hc] at hx
      rcases List.mem_append.mp hx with hx | hx
      · exact h1 x hx
      · have hxq : x = (q.2, q.1) := by simpa using hx
        rw [hxq]
        exact h2 q (List.mem_cons_self _ _)

/-- Keep-first deduplication only keeps original elements. -/
theorem mem_dedupKeepFirst {α : Type} [DecidableEq α] {a : α} :
    ∀ {l : List α}, a ∈ dedupKeepFirst l → a ∈ l := by
  intro l
  induction l with
  | nil => simp [dedupKeepFirst]
  | cons b rest ih =>
    intro h
    simp only [dedupKeepFirst] at h
    rcases List.mem_cons.mp h with h | h
    · exact h ▸ List.mem_cons_self _ _
    · exact List.mem_cons_of_mem _ (ih (List.mem_of_mem_filter h))

/-- Shared lemma: persisting a record with an empty sender address against a store
whose address table has no empty address rolls back, leaving the store unchanged
(`""` is never seeded by step 1, so the parent row's foreign key fails). -/
theorem emptySender_rollback :
    ∀ (db : DB) (r : ExtractedEmailData),
      (∀ p ∈ db.email_address, p.1 ≠ "") → r.sender_email = "" →
      insert_message db r true = db := by
  intro db r hdb hs
  have h1 : ∀ p ∈ (seedAddresses db r).email_address, p.1 ≠ "" := by
    apply insAddrs_no_empty _ _ hdb
    intro q hq
    have := List.mem_filter.mp (mem_dedupKeepFirst hq)
    simpa using this.2
  have hfk : (seedAddresses db r).email_address.any
      (fun q => q.1 = r.sender_email) = false := by
    cases hA : (seedAddresses db r).email_address.any (fun q => q.1 = r.sender_email) with
    | false => rfl
    | true =>
      obtain ⟨x, hx, hpx⟩ := List.any_eq_true.mp hA
      have : x.1 = r.sender_email := by simpa using hpx
      exact absurd (this.trans hs) (h1 x hx)
  have hrep : replaceEmailRow (seedAddresses db r) r =
      .error "sqlite3.IntegrityError: FOREIGN KEY constraint failed" := by
    simp [replaceEmailRow, hfk]
  simp [insert_message, insertRun, hrep, Bind.bind, Except.bind]

/-- C10: the claim's first half holds — a message with no `From` header still yields a
record, with `sender_email = ""` and no `sender_name` — but its second half fails: the
empty sender address does NOT flow into a parent row, because step 1 of
`insert_message` skips falsy addresses, so `""` is never in `email_address`, the
parent row's `sender_email` foreign key fails, and the transaction rolls back leaving
the store unchanged (amended second half, for any store without an empty address). -/
theorem claimC10_theorem :
    (∀ msg raw r,
       (∀ h ∈ (msg.payload.getD emptyPart).headers, toLowerStr h.name ≠ "from") →
       extract_email_data msg raw = .ok r →
       r.sender_email = "" ∧ r.sender_name = none) ∧
    (∀ (db : DB) (r : ExtractedEmailData),
       (∀ p ∈ db.email_address, p.1 ≠ "") → r.sender_email = "" →
       insert_message db r true = db) := by
  constructor
  · intro msg raw r hno h
    simp only [extract_email_data, Bind.bind] at h
    obtain ⟨bodies, h1, h⟩ := except_bind_ok h
    obtain ⟨xh, h2, h⟩ := except_bind_ok h
    obtain ⟨lb, h3, h⟩ := except_bind_ok h
    obtain ⟨idm, h4, h⟩ := except_bind_ok h
    obtain ⟨raw2, h5, h⟩ := except_bind_ok h
    have hr : assembleRecord msg (msg.payload.getD emptyPart) bodies xh lb idm raw2 = r := by
      simpa [pure, Except.pure] using h
    have hfrom : get_header (msg.payload.getD emptyPart).headers "From" = none := by
      have hfind : (msg.payload.getD emptyPart).headers.find?
          (fun h => toLowerStr h.name = toLowerStr "From") = none := by
        rw [List.find?_eq_none]
        intro x hx
        have hlow : toLowerStr "From" = "from" := by decide
        simp only [hlow, decide_eq_true_eq]
        exact hno x hx
      simp [get_header, hfind]
    rw [← hr]
    simp [assembleRecord, hfrom, resolveSender]
  · exact emptySender_rollback

/-- C10 counterexample: persisting the record of a `From`-less message on a fresh
store writes no parent row at all (the claim says the empty sender flows into one). -/
theorem claimC10_counterexample :
    (extract_email_data msgNoFrom none).map (fun r => r.sender_email) = .ok "" ∧
    (extract_email_data msgNoFrom none).map
      (fun r => (insert_message emptyDB r true).emails) = .ok [] :=
  ⟨by decide, by decide⟩

/-- C10 witness: both halves applied at concrete inputs. -/
theorem claimC10_witness :
    (extract_email_data msgNoFrom none).map
      (fun r => (r.sender_email, r.sender_name)) = .ok ("", none) ∧
    insert_message emptyDB r6Fail true = emptyDB := by
  constructor
  · cases h : extract_email_data msgNoFrom none with
    | error e =>
      have hok : (extract_email_data msgNoFrom none).isOk = true := by decide
      rw [h] at hok
      simp [Except.isOk, Except.toBool] at hok
    | ok r =>
      obtain ⟨hse, hsn⟩ := claimC10_theorem.1 msgNoFrom none r (by decide) h
      simp [Except.map, hse, hsn]
  · exact claimC10_theorem.2 emptyDB r6Fail (by simp [emptyDB]) rfl

/-! # Claim C7 -/

/-- Attachment rows built by the parts loop carry the owning `message["id"]`. -/
theorem attachmentsOf_mem {message : GmailMessage} :
    ∀ ps l, attachmentsOf message ps = .ok l →
      ∀ a ∈ l, some a.message_id = message.id := by
  refine partList_ind ?_ ?_
  · intro l h a ha
    have hl : l = ([] : List EmailAttachmentModel) := by
      simpa [attachmentsOf] using h.symm
    rw [hl] at ha
    cases ha
  · intro p rest ih l h a ha
    by_cases hf : truthyOptStr p.filename = true
    · simp only [attachmentsOf, hf, if_pos, Bind.bind] at h
      obtain ⟨mid, hm, h⟩ := except_bind_ok h
      obtain ⟨others, ho, h⟩ := except_bind_ok h
      have hmid : message.id = some mid := by
        cases hi : message.id with
        | none => simp [reqId, hi] at hm
        | some i =>
          simp [reqId, hi] at hm
          subst hm
          rfl
      have hl := h
      simp only [pure, Except.pure, Except.ok.injEq] at hl
      rw [← hl] at ha
      rcases List.mem_cons.mp ha with ha | ha
      · rw [ha, hmid]
      · exact ih others ho a ha
    · simp only [attachmentsOf, hf, if_neg, Bool.false_eq_true, not_false_iff] at h
      exact ih l h a ha

/-- X-header rows carry the owning `message["id"]`. -/
theorem xheadersOf_mem {message : GmailMessage} :
    ∀ hs l, xheadersOf message hs = .ok l →
      ∀ x ∈ l, some x.message_id = message.id := by
  intro hs
  induction hs with
  | nil =>
    intro l h x hx
    have hl : l = ([] : List EmailXHeaderModel) := by simpa [xheadersOf] using h.symm
    rw [hl] at hx
    cases hx
  | cons hd rest ih =>
    intro l h x hx
    by_cases hX : startsWithStr "x-" (toLowerStr hd.name) = true
    · simp only [xheadersOf, hX, if_pos, Bind.bind] at h
      obtain ⟨mid, hm, h⟩ := except_bind_ok h
      obtain ⟨others, ho, h⟩ := except_bind_ok h
      have hmid : message.id = some mid := by
        cases hi : message.id with
        | none => simp [reqId, hi] at hm
        | some i =>
          simp [reqId, hi] at hm
          subst hm
          rfl
      have hl := h
      simp only [pure, Except.pure, Except.ok.injEq] at hl
      rw [← hl] at hx
      rcases List.mem_cons.mp hx with hx | hx
      · rw [hx, hmid]
      · exact ih others ho x hx
    · simp only [xheadersOf, hX, if_neg, Bool.false_eq_true, not_false_iff] at h
      exact ih l h x hx

/-- Label rows carry the owning `message["id"]`. -/
theorem labelsOf_mem {message : GmailMessage} :
    ∀ ls l, labelsOf message ls = .ok l →
      ∀ x ∈ l, some x.message_id = message.id := by
  intro ls
  induction ls with
  | nil =>
    intro l h x hx
    have hl : l = ([] : List EmailLabelModel) := by simpa [labelsOf] using h.symm
    rw [hl] at hx
    cases hx
  | cons lab rest ih =>
    intro l h x hx
    simp only [labelsOf, Bind.bind] at h
    obtain ⟨mid, hm, h⟩ := except_bind_ok h
    obtain ⟨others, ho, h⟩ := except_bind_ok h
    have hmid : message.id = some mid := by
      cases hi : message.id with
      | none => simp [reqId, hi] at hm
      | some i =>
        simp [reqId, hi] at hm
        subst hm
        rfl
    have hl := h
    simp only [pure, Except.pure, Except.ok.injEq] at hl
    rw [← hl] at hx
    rcases List.mem_cons.mp hx with hx | hx
    · rw [hx, hmid]
    · exact ih others ho x hx

/-- The authentication dict built by `parse_auth_results` never has a message id. -/
theorem parse_auth_mid_none :
    ∀ (h : Option String) (a : EmailAuthenticationModel),
      parse_auth_results h = some a → a.message_id = none := by
  intro h a ha
  cases h with
  | none => exact absurd ha (by simp [parse_auth_results])
  | some s =>
    by_cases hs : s = ""
    · simp [parse_auth_results, hs] at ha
    · simp only [parse_auth_results, hs, if_neg, Bool.false_eq_true, not_false_iff] at ha
      split at ha
      · exact absurd ha (by simp)
      · cases ha
        rfl

/-- The attachments component of `extractBodies` when the payload has a parts list. -/
theorem extractBodies_childs_atts {message : GmailMessage} {payload : Part}
    {bodies : Option String × Option String × List EmailAttachmentModel × List AdditionalPart}
    {ps : PartList} (hch : payload.childs = some ps)
    (h : extractBodies message payload = .ok bodies) :
    attachmentsOf message ps = .ok bodies.2.2.1 := by
  simp only [extractBodies, hch, Bind.bind] at h
  obtain ⟨bt, hbt, h⟩ := except_bind_ok h
  obtain ⟨bh, hbh, h⟩ := except_bind_ok h
  obtain ⟨atts, hatts, h⟩ := except_bind_ok h
  have hb : (bt, bh, atts, additionalPartsOf ps) = bodies := by
    simpa [pure, Except.pure] using h
  rw [← hb]
  exact hatts

/-- Without a parts list no attachments are collected. -/
theorem extractBodies_nochilds_atts {message : GmailMessage} {payload : Part}
    {bodies : Option String × Option String × List EmailAttachmentModel × List AdditionalPart}
    (hch : payload.childs = none)
    (h : extractBodies message payload = .ok bodies) : bodies.2.2.1 = [] := by
  cases hd : payload.bodyData with
  | none =>
    simp only [extractBodies, hch, hd, pure, Except.pure, Except.ok.injEq] at h
    rw [← h]
  | some d =>
    by_cases hdne : d = ""
    · subst hdne
      simp only [extractBodies, hch, hd, ne_eq, not_true_eq_false, if_false, ite_false,
        reduceIte, pure, Except.pure, Except.ok.injEq] at h
      rw [← h]
    · by_cases hpl : payload.mimeType = some "text/plain"
      · simp only [extractBodies, hch, hd, ne_eq, hdne, not_false_iff, if_true, ite_true,
          reduceIte, hpl, Bind.bind] at h
        obtain ⟨t, ht, h⟩ := except_bind_ok h
        have hb : ((some t : Option String), (none : Option String),
            ([] : List EmailAttachmentModel), ([] : List AdditionalPart)) = bodies := by
          simpa [pure, Except.pure] using h
        rw [← hb]
      · by_cases hht : payload.mimeType = some "text/html"
        · simp only [extractBodies, hch, hd, ne_eq, hdne, not_false_iff, if_true, ite_true,
            reduceIte, hpl, hht, if_false, ite_false, Bind.bind] at h
          obtain ⟨t, ht, h⟩ := except_bind_ok h
          have hb : ((none : Option String), (some t : Option String),
              ([] : List EmailAttachmentModel), ([] : List AdditionalPart)) = bodies := by
            simpa [pure, Except.pure] using h
          rw [← hb]
        · simp only [extractBodies, hch, hd, ne_eq, hdne, not_false_iff, if_true, ite_true,
            reduceIte, hpl, hht, if_false, ite_false, pure, Except.pure, Except.ok.injEq] at h
          rw [← h]

/-- C7: the claim fails on the code.  Amended: attachment, X-header and label entries
do carry the owning message id, but the authentication-results dict never does (and
`AdditionalPart` has no message-id field at all). -/
theorem claimC7_theorem :
    ∀ msg raw r, extract_email_data msg raw = .ok r →
      (∀ a ∈ r.attachments, some a.message_id = msg.id) ∧
      (∀ x ∈ r.xheaders, some x.message_id = msg.id) ∧
      (∀ l ∈ r.labels, some l.message_id = msg.id) ∧
      (∀ a, r.authentication_results = some a → a.message_id = none) := by
  intro msg raw r h
  simp only [extract_email_data, Bind.bind] at h
  obtain ⟨bodies, h1, h⟩ := except_bind_ok h
  obtain ⟨xh, h2, h⟩ := except_bind_ok h
  obtain ⟨lb, h3, h⟩ := except_bind_ok h
  obtain ⟨idm, h4, h⟩ := except_bind_ok h
  obtain ⟨raw2, h5, h⟩ := except_bind_ok h
  have hr : assembleRecord msg (msg.payload.getD emptyPart) bodies xh lb idm raw2 = r := by
    simpa [pure, Except.pure] using h
  have hatt : r.attachments = bodies.2.2.1 := by rw [← hr]; simp [assembleRecord]
  have hxh : r.xheaders = xh := by rw [← hr]; simp [assembleRecord]
  have hlb : r.labels = lb := by rw [← hr]; simp [assembleRecord]
  have hauth : r.authentication_results =
      parse_auth_results (get_header (msg.payload.getD emptyPart).headers
        "Authentication-Results") := by rw [← hr]; simp [assembleRecord]
  refine ⟨?_, ?_, ?_, ?_⟩
  · rw [hatt]
    cases hch : (msg.payload.getD emptyPart).childs with
    | some ps => exact attachmentsOf_mem ps _ (extractBodies_childs_atts hch h1)
    | none =>
      rw [extractBodies_nochilds_atts hch h1]
      intro a ha
      cases ha
  · rw [hxh]
    exact xheadersOf_mem _ xh h2
  · rw [hlb]
    exact labelsOf_mem _ lb h3
  · rw [hauth]
    intro a ha
    exact parse_auth_mid_none _ a ha

/-- C7 counterexample: the extracted authentication results of a message with an
`Authentication-Results` header carry no message id (the claim says every child
collection entry carries the owning id). -/
theorem claimC7_counterexample :
    (extract_email_data msgAuthHeader none).map
      (fun r => r.authentication_results.map (fun a => a.message_id)) =
      .ok (some none) := by decide

/-- C7 witness: the amended theorem applied to a message populating every collection. -/
theorem claimC7_witness :
    (extract_email_data msgAuthHeader none).map
      (fun r => (r.attachments.all (fun a => some a.message_id = msgAuthHeader.id) &&
                 r.xheaders.all (fun x => some x.message_id = msgAuthHeader.id) &&
                 r.labels.all (fun l => some l.message_id = msgAuthHeader.id))) =
      .ok true := by
  cases h : extract_email_data msgAuthHeader none with
  | error e =>
    have hok : (extract_email_data msgAuthHeader none).isOk = true := by decide
    rw [h] at hok
    simp [Except.isOk, Except.toBool] at hok
  | ok r =>
    obtain ⟨ha, hx, hl, _⟩ := claimC7_theorem msgAuthHeader none r h
    simp only [Except.map]
    congr 1
    simp only [Bool.and_eq_true, List.all_eq_true, decide_eq_true_eq]
    exact ⟨⟨fun a haa => ha a haa, fun x hxx => hx x hxx⟩, fun l hll => hl l hll⟩


/-! # Claim C4 -/

/-- Reloading a dumped Python value yields exactly its canonical JSON coercion, at
every fuel (all three functions truncate identically). -/
theorem loadPy_dumpPy : ∀ (n : Nat) (v : PyVal), loadPy n (dumpPy n v) = pyCoerce n v := by
  intro n
  induction n with
  | zero => intro v; rfl
  | succ n ih =>
    intro v
    cases v with
    | pnone => rfl
    | pstr s => rfl
    | pint k => rfl
    | pdt t => rfl
    | plist l =>
      simp only [dumpPy, loadPy, pyCoerce, List.map_map]
      exact congrArg PyVal.plist (List.map_congr_left (fun a _ => ih a))
    | ptuple l =>
      simp only [dumpPy, loadPy, pyCoerce, List.map_map]
      exact congrArg PyVal.plist (List.map_congr_left (fun a _ => ih a))
    | pdict l =>
      simp only [dumpPy, loadPy, pyCoerce, List.map_map]
      exact congrArg PyVal.pdict (List.map_congr_left (fun kv _ => by
        simp only [Function.comp_apply]
        exact congrArg (fun w => (kv.1, w)) (ih kv.2)))

/-- C4 counterexample: the round trip is not the identity on the record's dictionary —
the loaded `sent_timestamp` is the string rendering of the datetime, not the datetime. -/
theorem claimC4_counterexample : saveThenImport c4Rec ≠ toPy c4Rec := by
  intro h
  have h1 : pyGetKey (saveThenImport c4Rec) "sent_timestamp" =
      pyGetKey (toPy c4Rec) "sent_timestamp" := by rw [h]
  have e1 : pyGetKey (saveThenImport c4Rec) "sent_timestamp" =
      some (.pstr "2025-04-15 10:30:00+00:00") := rfl
  have e2 : pyGetKey (toPy c4Rec) "sent_timestamp" =
      some (.pdt ⟨2025, 4, 15, 10, 30, 0, some 0⟩) := rfl
  rw [e1, e2] at h1
  exact PyVal.noConfusion (Option.some.inj h1)

/-- C4 (amended): serializing a record to the per-message JSON document and reloading
it reproduces the canonical JSON coercion of every field — string, number, null, list,
and object fields are reproduced exactly, but the sent timestamp comes back as its
`str(datetime)` rendering and each recipient (name, address) tuple as a two-element
list.  (The display-only raw-source truncation indeed never enters the document.) -/
theorem claimC4_theorem :
    ∀ (r : ExtractedEmailData), saveThenImport r = pyCoerce jsonFuel (toPy r) :=
  fun r => loadPy_dumpPy jsonFuel (toPy r)

/-! # Claim C8 -/

/-- The body walker against the specification-side depth-first search: on trees whose
truthy data fields decode to nonempty text the two agree, and a returned data string
is itself well-formed. -/
theorem get_body_part_firstData :
    ∀ (fuel : Nat) (ps : PartList) (m : String), PartsDataOk DecNonempty ps →
      get_body_part fuel ps m = .ok ((firstDataDfs fuel ps m).map decodeReplaceTot) ∧
      (∀ d, firstDataDfs fuel ps m = some d → DecNonempty d) := by
  intro fuel
  induction fuel with
  | zero =>
    intro ps m _
    exact ⟨rfl, fun d h => by cases h⟩
  | succ n ih =>
    intro ps m hps
    cases hps with
    | nil => exact ⟨rfl, fun d h => by cases h⟩
    | @cons p rest hp hrest =>
      by_cases hc : p.mimeType = some m ∧ truthyData p
      · obtain ⟨d, hd⟩ : ∃ d, p.bodyData = some d := by
          rcases hx : p.bodyData with _ | d
          · exact absurd hc.2 (by simp [truthyData, truthyOptStr, hx])
          · exact ⟨d, rfl⟩
        have hdne : d ≠ "" := by
          have := hc.2
          simp [truthyData, truthyOptStr, hd] at this
          simpa using this
        have hwf : DecNonempty d := hp.dataCond d hd hdne
        obtain ⟨s, hs⟩ := decodeReplaceE_ok hwf.1
        have hst : decodeReplaceTot d = s := by simp [decodeReplaceTot, hs]
        constructor
        · simp [get_body_part, firstDataDfs, hc, hd, hs, hst, Bind.bind, Except.bind,
            pure, Except.pure]
        · intro d2 h2
          have : d = d2 := by simpa [firstDataDfs, hc, hd] using h2
          rw [← this]
          exact hwf
      · have hchild : PartsDataOk DecNonempty (p.childs.getD .nil) := hp.childrenCond
        obtain ⟨ihr1, ihr2⟩ := ih rest m hrest
        cases hch : p.childs with
        | some ps2 =>
          have hps2 : PartsDataOk DecNonempty ps2 := by
            rw [hch] at hchild
            simpa using hchild
          obtain ⟨ihc1, ihc2⟩ := ih ps2 m hps2
          cases hfd : firstDataDfs n ps2 m with
          | some d2 =>
            have hwf2 := ihc2 d2 hfd
            have hne2 : decodeReplaceTot d2 ≠ "" := hwf2.2
            rw [hfd] at ihc1
            constructor
            · simp [get_body_part, firstDataDfs, hc, hch, hfd, ihc1, hne2,
                Bind.bind, Except.bind, pure, Except.pure]
            · intro d3 h3
              have : d2 = d3 := by simpa [firstDataDfs, hc, hch, hfd] using h3
              rw [← this]
              exact hwf2
          | none =>
            rw [hfd] at ihc1
            constructor
            · simp [get_body_part, firstDataDfs, hc, hch, hfd, ihc1, ihr1,
                Bind.bind, Except.bind]
            · intro d3 h3
              have h4 : firstDataDfs n rest m = some d3 := by
                simpa [firstDataDfs, hc, hch, hfd] using h3
              exact ihr2 d3 h4
        | none =>
          constructor
          · simp [get_body_part, firstDataDfs, hc, hch, ihr1]
          · intro d3 h3
            have h4 : firstDataDfs n rest m = some d3 := by
              simpa [firstDataDfs, hc, hch] using h3
            exact ihr2 d3 h4

/-- C8 counterexample: on a tree whose first matching leaf (depth-first) carries the
truthy inline data `"."` decoding to the empty string, the walker does NOT return that
first leaf's text — the recursion's truthiness check skips the empty result and a
later leaf's `"hi"` is returned instead. -/
theorem claimC8_counterexample :
    getBodyPartTop c8CexTree "text/plain" = .ok (some "hi") ∧
    (firstDataDfsTop c8CexTree "text/plain").map decodeReplaceTot = some "" :=
  ⟨by decide, by decide⟩

/-- C8 (amended): on every body-payload tree whose truthy data fields decode to
nonempty text, `get_body_part` returns exactly the UTF-8 (errors-replaced) decoding of
the first leaf in depth-first order (the tree's own child order) whose declared MIME
type equals the requested type and which carries inline data — and nothing when no
such leaf exists; in particular on the example tree it returns the top-level plain
leaf for text/plain and the nested html leaf for text/html.  (Without the
nonempty-decode condition a nested empty-decoding result is skipped, see the
counterexample.) -/
theorem claimC8_theorem :
    (∀ ps m, PartsDataOk DecNonempty ps →
       getBodyPartTop ps m = .ok ((firstDataDfsTop ps m).map decodeReplaceTot)) ∧
    getBodyPartTop c8Tree "text/plain" = .ok (some "plain") ∧
    getBodyPartTop c8Tree "text/html" = .ok (some "html") ∧
    getBodyPartTop c8Tree "image/png" = .ok none := by
  refine ⟨?_, by decide, by decide, by decide⟩
  intro ps m hps
  exact (get_body_part_firstData (partsSize ps + 1) ps m hps).1

/-- C8 witness: the example tree satisfies the hypotheses, and the amended theorem
computes its bodies through the specification-side search. -/
theorem claimC8_witness :
    PartsDataOk DecNonempty c8Tree ∧
    getBodyPartTop c8Tree "text/plain" =
      .ok ((firstDataDfsTop c8Tree "text/plain").map decodeReplaceTot) := by
  have hok : PartsDataOk DecNonempty c8Tree := by
    refine PartsDataOk.cons (PartDataOk.intro _ ?_ PartsDataOk.nil) ?_
    · intro d hd _
      have hd2 : d = "cGxhaW4=" := by simpa [c8Tree, Part.bodyData] using hd.symm
      rw [hd2]
      exact ⟨by decide, by decide⟩
    · refine PartsDataOk.cons (PartDataOk.intro _ ?_ ?_) PartsDataOk.nil
      · intro d hd _
        exact absurd hd (by simp [c8Tree, Part.bodyData])
      · refine PartsDataOk.cons (PartDataOk.intro _ ?_ PartsDataOk.nil) PartsDataOk.nil
        intro d hd _
        have hd2 : d = "aHRtbA==" := by simpa [c8Tree, Part.bodyData] using hd.symm
        rw [hd2]
        exact ⟨by decide, by decide⟩
  exact ⟨hok, claimC8_theorem.1 c8Tree "text/plain" hok⟩

/-! # Claim C5 -/

/-- Seeding monotonicity: an address already present stays present. -/
theorem insAddrs_any_mono :
    ∀ (l : List (Option String × String)) (tbl : List (String × Option String)) (x : String),
      tbl.any (fun q => q.1 = x) = true → (insAddrs tbl l).any (fun q => q.1 = x) = true := by
  intro l
  induction l with
  | nil => exact fun tbl x h => h
  | cons p rest ih =>
    intro tbl x h
    simp only [insAddrs]
    apply ih
    by_cases hc : tbl.any (fun t => t.1 = p.2) = true
    · rw [if_pos hc]
      exact h
    · rw [if_neg hc, List.any_append]
      simp [h]

/-- Every address occurring in the seeded tuple list ends up in the table. -/
theorem insAddrs_mem_any :
    ∀ (l : List (Option String × String)) (tbl : List (String × Option String)) (x : String),
      (∃ p ∈ l, p.2 = x) → (insAddrs tbl l).any (fun q => q.1 = x) = true := by
  intro l
  induction l with
  | nil =>
    rintro tbl x ⟨p, hp, _⟩
    cases hp
  | cons p rest ih =>
    rintro tbl x ⟨q, hq, hqx⟩
    simp only [insAddrs]
    rcases List.mem_cons.mp hq with hq | hq
    · subst hq
      apply insAddrs_any_mono
      by_cases hc : tbl.any (fun t => t.1 = q.2) = true
      · rw [if_pos hc]
        simp only [hqx] at hc
        exact hc
      · rw [if_neg hc, List.any_append]
        simp [hqx]
    · exact ih _ _ ⟨q, hq, hqx⟩

/-- Keep-first deduplication keeps every original element. -/
theorem mem_dedupKeepFirst_of_mem {α : Type} [DecidableEq α] {a : α} :
    ∀ {l : List α}, a ∈ l → a ∈ dedupKeepFirst l := by
  intro l
  induction l with
  | nil => intro h; cases h
  | cons b rest ih =>
    intro h
    simp only [dedupKeepFirst]
    rcases List.mem_cons.mp h with h | h
    · exact h ▸ List.mem_cons_self _ _
    · by_cases hab : a = b
      · exact hab ▸ List.mem_cons_self _ _
      · exact List.mem_cons_of_mem _ (List.mem_filter.mpr ⟨ih h, by simpa using hab⟩)

/-- A nonempty sender address is always seeded by step 1 of `insert_message`, so the
parent row's foreign-key check succeeds. -/
theorem seed_sender_mem :
    ∀ (db : DB) (r : ExtractedEmailData), r.sender_email ≠ "" →
      ((seedAddresses db r).email_address.any (fun q => q.1 = r.sender_email)) = true := by
  intro db r h
  simp only [seedAddresses]
  apply insAddrs_mem_any
  refine ⟨(r.sender_name, r.sender_email), ?_, rfl⟩
  apply mem_dedupKeepFirst_of_mem
  exact List.mem_filter.mpr ⟨List.mem_cons_self _ _, by simpa using h⟩

/-- A filter throws away everything its negation kept. -/
theorem filter_not_filter {α : Type} (p : α → Bool) (l : List α) :
    (l.filter (fun a => !p a)).filter p = [] := by
  induction l with
  | nil => rfl
  | cons a t ih =>
    cases ha : p a with
    | true => simp [List.filter, ha, ih]
    | false => simp [List.filter, ha, ih]

/-- A map whose image satisfies the predicate passes a filter unchanged. -/
theorem filter_map_all {α β : Type} (f : α → β) (p : β → Bool) (l : List α)
    (h : ∀ a, p (f a) = true) : (l.map f).filter p = l.map f := by
  apply List.filter_eq_self.mpr
  intro b hb
  rcases List.mem_map.mp hb with ⟨a, _, rfl⟩
  exact h a

/-- The exact store produced by one successful `insert_message` (any record with a
nonempty sender address commits): the parent row is replaced, every child table keeps
only rows of other message ids plus the record's new rows, and the authentication
table is purged either by the cascade (when a parent row existed) or by step 7's
delete (when the record carries auth data) before the record's auth rows go in. -/
theorem insert_ok_shape :
    ∀ (db : DB) (r : ExtractedEmailData), r.sender_email ≠ "" →
      insert_message db r true = DB.mk
        (seedAddresses db r).email_address
        (db.emails.filter (fun e => !sqlEq e.message_id r.message_id) ++ [emailRowOf r])
        (db.email_attachments.filter (fun a => !sqlEq a.message_id r.message_id) ++
          r.attachments.map (attRowOf r.message_id))
        (db.email_xheaders.filter (fun x => !sqlEq x.message_id r.message_id) ++
          r.xheaders.map (xhRowOf r.message_id))
        (db.email_labels.filter (fun l => !sqlEq l.message_id r.message_id) ++
          r.labels.map (lbRowOf r.message_id))
        (db.email_routing_headers.filter (fun h => !sqlEq h.message_id r.message_id) ++
          (r.routing_headers.getD []).map (rtRowOf r.message_id))
        ((if db.emails.any (fun e => sqlEq e.message_id r.message_id) ||
              r.authentication_results.isSome then
            db.email_authentication.filter (fun x => !sqlEq x.message_id r.message_id)
          else db.email_authentication) ++ authRowsOf r) := by
  intro db r h
  have hseed := seed_sender_mem db r h
  have hsE : (seedAddresses db r).emails = db.emails := rfl
  have hsA : (seedAddresses db r).email_attachments = db.email_attachments := rfl
  have hsX : (seedAddresses db r).email_xheaders = db.email_xheaders := rfl
  have hsL : (seedAddresses db r).email_labels = db.email_labels := rfl
  have hsR : (seedAddresses db r).email_routing_headers = db.email_routing_headers := rfl
  have hsAu : (seedAddresses db r).email_authentication = db.email_authentication := rfl
  cases hex : db.emails.any (fun e => sqlEq e.message_id r.message_id) with
  | true =>
    cases hauth : r.authentication_results with
    | some a =>
      simp [insert_message, insertRun, replaceEmailRow, cascadeChildren, replaceChildren,
        replaceAuth, authRowsOf, hseed, hsE, hsA, hsX, hsL, hsR, hsAu, hex, hauth,
        Bind.bind, Except.bind, pure, Except.pure, List.filter_filter, Bool.and_self]
    | none =>
      simp [insert_message, insertRun, replaceEmailRow, cascadeChildren, replaceChildren,
        replaceAuth, authRowsOf, hseed, hsE, hsA, hsX, hsL, hsR, hsAu, hex, hauth,
        Bind.bind, Except.bind, pure, Except.pure, List.filter_filter, Bool.and_self]
  | false =>
    cases hauth : r.authentication_results with
    | some a =>
      simp [insert_message, insertRun, replaceEmailRow, cascadeChildren, replaceChildren,
        replaceAuth, authRowsOf, hseed, hsE, hsA, hsX, hsL, hsR, hsAu, hex, hauth,
        Bind.bind, Except.bind, pure, Except.pure, List.filter_filter, Bool.and_self]
    | none =>
      simp [insert_message, insertRun, replaceEmailRow, cascadeChildren, replaceChildren,
        replaceAuth, authRowsOf, hseed, hsE, hsA, hsX, hsL, hsR, hsAu, hex, hauth,
        Bind.bind, Except.bind, pure, Except.pure, List.filter_filter, Bool.and_self]

/-- C5 counterexample: against the claim as stated, a second record with the same
message id whose extraction found no `From` header (empty sender address, no
authentication results, no attachments) rolls back, so the first write's attachment
and authentication rows survive as stale child rows. -/
theorem claimC5_counterexample :
    r5bEmptySender.message_id = r5a.message_id ∧
    r5bEmptySender.attachments = [] ∧
    r5bEmptySender.authentication_results = none ∧
    (insert_message (insert_message emptyDB r5a true) r5bEmptySender
        true).email_attachments.filter (fun a => sqlEq a.message_id (some "m5")) ≠ [] ∧
    (insert_message (insert_message emptyDB r5a true) r5bEmptySender
        true).email_authentication.filter (fun x => sqlEq x.message_id (some "m5")) ≠
      authRowsOf r5bEmptySender := by
  refine ⟨rfl, rfl, rfl, by decide, by decide⟩

/-- C5 (amended): for two records with the same message id whose sender addresses are
both nonempty (so both per-message transactions commit), persisting the first and then
the second with `update_if_exists=True` leaves exactly one parent row for that id —
the second record's — and exactly the second record's child rows in every child table;
in particular the authentication rows equal the second record's even when it has no
authentication results, because the `INSERT OR REPLACE`'s internal delete of the first
parent row cascades over the first record's auth rows.  When the second record's
sender address is empty its transaction rolls back instead and stale rows survive
(see the counterexample). -/
theorem claimC5_theorem :
    ∀ (db : DB) (r1 r2 : ExtractedEmailData) (id : String),
      r1.message_id = some id → r2.message_id = some id →
      r1.sender_email ≠ "" → r2.sender_email ≠ "" →
      (insert_message (insert_message db r1 true) r2 true).emails.filter
        (fun e => sqlEq e.message_id (some id)) = [emailRowOf r2] ∧
      (insert_message (insert_message db r1 true) r2 true).email_attachments.filter
        (fun a => sqlEq a.message_id (some id)) = r2.attachments.map (attRowOf (some id)) ∧
      (insert_message (insert_message db r1 true) r2 true).email_xheaders.filter
        (fun x => sqlEq x.message_id (some id)) = r2.xheaders.map (xhRowOf (some id)) ∧
      (insert_message (insert_message db r1 true) r2 true).email_labels.filter
        (fun l => sqlEq l.message_id (some id)) = r2.labels.map (lbRowOf (some id)) ∧
      (insert_message (insert_message db r1 true) r2 true).email_routing_headers.filter
        (fun h => sqlEq h.message_id (some id)) =
        (r2.routing_headers.getD []).map (rtRowOf (some id)) ∧
      (insert_message (insert_message db r1 true) r2 true).email_authentication.filter
        (fun x => sqlEq x.message_id (some id)) = authRowsOf r2 := by
  intro db r1 r2 id h1 h2 hs1 hs2
  have H1 := insert_ok_shape db r1 hs1
  have H2 := insert_ok_shape (insert_message db r1 true) r2 hs2
  rw [h2] at H2
  have hex1 : (insert_message db r1 true).emails.any
      (fun e => sqlEq e.message_id (some id)) = true := by
    rw [H1]
    simp [List.any_append, emailRowOf, h1, sqlEq]
  rw [hex1, Bool.true_or, if_pos rfl] at H2
  refine ⟨?_, ?_, ?_, ?_, ?_, ?_⟩
  · rw [H2]
    show (((insert_message db r1 true).emails.filter
        (fun e => !sqlEq e.message_id (some id)) ++ [emailRowOf r2]).filter
        (fun e => sqlEq e.message_id (some id))) = [emailRowOf r2]
    rw [List.filter_append, filter_not_filter, List.nil_append]
    simp [emailRowOf, h2, sqlEq]
  · rw [H2]
    show (((insert_message db r1 true).email_attachments.filter
        (fun a => !sqlEq a.message_id (some id)) ++
        r2.attachments.map (attRowOf (some id))).filter
        (fun a => sqlEq a.message_id (some id))) = r2.attachments.map (attRowOf (some id))
    rw [List.filter_append, filter_not_filter, List.nil_append]
    exact filter_map_all _ _ _ (fun a => by simp [attRowOf, sqlEq])
  · rw [H2]
    show (((insert_message db r1 true).email_xheaders.filter
        (fun x => !sqlEq x.message_id (some id)) ++
        r2.xheaders.map (xhRowOf (some id))).filter
        (fun x => sqlEq x.message_id (some id))) = r2.xheaders.map (xhRowOf (some id))
    rw [List.filter_append, filter_not_filter, List.nil_append]
    exact filter_map_all _ _ _ (fun x => by simp [xhRowOf, sqlEq])
  · rw [H2]
    show (((insert_message db r1 true).email_labels.filter
        (fun l => !sqlEq l.message_id (some id)) ++
        r2.labels.map (lbRowOf (some id))).filter
        (fun l => sqlEq l.message_id (some id))) = r2.labels.map (lbRowOf (some id))
    rw [List.filter_append, filter_not_filter, List.nil_append]
    exact filter_map_all _ _ _ (fun l => by simp [lbRowOf, sqlEq])
  · rw [H2]
    show (((insert_message db r1 true).email_routing_headers.filter
        (fun x => !sqlEq x.message_id (some id)) ++
        (r2.routing_headers.getD []).map (rtRowOf (some id))).filter
        (fun x => sqlEq x.message_id (some id))) =
      (r2.routing_headers.getD []).map (rtRowOf (some id))
    rw [List.filter_append, filter_not_filter, List.nil_append]
    exact filter_map_all _ _ _ (fun x => by simp [rtRowOf, sqlEq])
  · rw [H2]
    show (((insert_message db r1 true).email_authentication.filter
        (fun x => !sqlEq x.message_id (some id)) ++ authRowsOf r2).filter
        (fun x => sqlEq x.message_id (some id))) = authRowsOf r2
    rw [List.filter_append, filter_not_filter, List.nil_append]
    cases hA : r2.authentication_results with
    | some a => simp [authRowsOf, hA, authRowOf, h2, sqlEq]
    | none => simp [authRowsOf, hA]

/-- C5 witness: the amended theorem at the concrete upsert pair (second record with a
changed label set and no authentication results). -/
theorem claimC5_witness :
    r5a.message_id = some "m5" ∧ r5cSecond.message_id = some "m5" ∧
    r5a.sender_email ≠ "" ∧ r5cSecond.sender_email ≠ "" ∧
    (insert_message (insert_message emptyDB r5a true) r5cSecond true).email_labels.filter
      (fun l => sqlEq l.message_id (some "m5")) = r5cSecond.labels.map (lbRowOf (some "m5")) ∧
    (insert_message (insert_message emptyDB r5a true) r5cSecond true).email_authentication.filter
      (fun x => sqlEq x.message_id (some "m5")) = authRowsOf r5cSecond :=
  ⟨rfl, rfl, by decide, by decide,
    (claimC5_theorem emptyDB r5a r5cSecond "m5" rfl rfl (by decide) (by decide)).2.2.2.1,
    (claimC5_theorem emptyDB r5a r5cSecond "m5" rfl rfl (by decide) (by decide)).2.2.2.2.2⟩

end Mail2Sql
